import Mathlib

/-!
# Touch tracker and camera controller of `game.c`

A shallow embedding of the touch-tracking and camera-control code of `src/src/game.c`
(`add_touch_points`, `update_touch_points`, `remove_touch_points`, `_control_camera`), of its
frame orchestrator (`update_game`, `destroy_game`) and of the renderer enumeration of
`src/src/graphics.h`.

Conventions of the embedding.

* The definitions take the type `F` of the `float` values with its operations as a parameter.
  Most theorems are proved for every linearly ordered field `F` (exact arithmetic; the literals
  `0.2f`, `0.1f`, `0.5f` are the field elements `0.2`, `0.1`, `0.5`).  Where a statement rests on
  a cancellation such as `x - x = 0`, the code is run over `XFloat`, which has the infinities, NaN
  and the overflow beyond `FLT_MAX`; rounding of finite results is not modelled there.
* `game->points` is a slot map `Nat → TouchPoint F`.  Slots `0 .. 15` are the declared array
  `TouchPoint points[16]`; a store to a slot `≥ 16` is a store past the end of the array.
* `game->num_points` is a `Nat`: it starts at zero (`calloc`), and is only changed by the `++` of
  `add_touch_points` and by the `--` of `remove_touch_points`, which runs at most once for every
  `ii < orig_num_points`.
* An incoming batch `(num_touch_points, points)` is a `List (TouchPoint F)`.
* The quaternion primitives of `vec_math.h` are a parameter (`QuatMath`), and so are its
  constants `k2Pi` and `transform_zero`.
* The function-local `static float degrees` of `update_game` is passed in and returned; the
  calls on the graphics subsystem, whose code is not under `src/`, are recorded in order.
-/

set_option linter.unusedSectionVars false

namespace Game3D

/-! ## Vectors (`vec_math.h`) -/

/-- Modelled from the spec: `Vec2` of `vec_math.h` (not under `src/`), a 2D screen coordinate. -/
structure Vec2 (F : Type) where
  x : F
  y : F
deriving DecidableEq, Repr

/-- Modelled from the spec: `Vec3` of `vec_math.h` (not under `src/`), a 3D vector. -/
structure Vec3 (F : Type) where
  x : F
  y : F
  z : F
deriving DecidableEq, Repr

section VecOps
variable {F : Type} [Add F] [Sub F] [Mul F]

/-- Modelled from the spec: `vec2_add` of `vec_math.h`, the componentwise sum. -/
def vec2_add (a b : Vec2 F) : Vec2 F := ⟨a.x + b.x, a.y + b.y⟩

/-- Modelled from the spec: `vec2_sub` of `vec_math.h`, the componentwise difference. -/
def vec2_sub (a b : Vec2 F) : Vec2 F := ⟨a.x - b.x, a.y - b.y⟩

/-- Modelled from the spec: `vec2_mul_scalar` of `vec_math.h`, scaling of both components. -/
def vec2_mul_scalar (a : Vec2 F) (s : F) : Vec2 F := ⟨a.x * s, a.y * s⟩

/-- Modelled from the spec: `vec3_add` of `vec_math.h`, the componentwise sum. -/
def vec3_add (a b : Vec3 F) : Vec3 F := ⟨a.x + b.x, a.y + b.y, a.z + b.z⟩

/-- Modelled from the spec: `vec3_mul_scalar` of `vec_math.h`, scaling of all components. -/
def vec3_mul_scalar (a : Vec3 F) (s : F) : Vec3 F := ⟨a.x * s, a.y * s, a.z * s⟩

end VecOps

/-- The quaternion primitives of `vec_math.h` that `game.c` calls, over a carrier `Q`.
The header is not under `src/`, so the primitives are taken as a parameter. -/
structure QuatMath (F : Type) (Q : Type) where
  quat_from_axis_anglef : F → F → F → F → Q
  quat_multiply : Q → Q → Q
  quat_get_x_axis : Q → Vec3 F
  quat_get_y_axis : Q → Vec3 F
  quat_get_z_axis : Q → Vec3 F
  quat_from_euler : F → F → F → Q

/-! ## Data model (`game.c`, lines 16-39) -/

/-- The `TouchPoint` type: a contact with a stable integer id and a screen position. -/
structure TouchPoint (F : Type) where
  index : Int
  pos : Vec2 F
deriving DecidableEq, Repr

/-- The `Transform` type: position, orientation and scale. -/
structure Transform (F : Type) (Q : Type) where
  position : Vec3 F
  orientation : Q
  scale : F
deriving DecidableEq

/-- The fields of `struct Game` that the touch tracker and the camera controller use. -/
structure Game (F : Type) (Q : Type) where
  camera : Transform F Q
  points : Nat → TouchPoint F
  num_points : Nat
  prev_single : Vec2 F
  prev_double : Vec2 F

section Code
variable {F : Type} [Add F] [Sub F] [Mul F] [Neg F] [Zero F] [One F] [OfScientific F] {Q : Type}

/-! ## Camera controller (`game.c`, lines 49-84) -/

/-- The `delta` of the one-finger branch: `vec2_sub(points[0].pos, prev_single)`. -/
def look_delta (game : Game F Q) : Vec2 F :=
  vec2_sub (game.points 0).pos game.prev_single

/-- The `avg` of the two-finger branch: `vec2_mul_scalar(vec2_add(p0, p1), 0.5f)`. -/
def pan_avg (game : Game F Q) : Vec2 F :=
  vec2_mul_scalar (vec2_add (game.points 0).pos (game.points 1).pos) 0.5

/-- The `delta` of the two-finger branch: `vec2_sub(avg, prev_double)`. -/
def pan_delta (game : Game F Q) : Vec2 F :=
  vec2_sub (pan_avg game) game.prev_double

/-- The function `_control_camera(game, delta_time)`. -/
def _control_camera (M : QuatMath F Q) (game : Game F Q) (delta_time : F) : Game F Q :=
  if game.num_points = 1 then
    let curr := (game.points 0).pos
    let delta := look_delta game
    -- L-R rotation
    let q := M.quat_from_axis_anglef 0 1 0 (delta_time * delta.x * 0.2)
    let o1 := M.quat_multiply game.camera.orientation q
    -- U-D rotation
    let q := M.quat_from_axis_anglef 1 0 0 (delta_time * delta.y * 0.2)
    let o2 := M.quat_multiply q o1
    { game with camera := { game.camera with orientation := o2 }, prev_single := curr }
  else if game.num_points = 2 then
    let camera_speed : F := 0.1
    let look := M.quat_get_z_axis game.camera.orientation
    let right := M.quat_get_x_axis game.camera.orientation
    let _up := M.quat_get_y_axis game.camera.orientation
    let avg := pan_avg game
    let delta := pan_delta game
    let look := vec3_mul_scalar look (-delta.y * camera_speed)
    let right := vec3_mul_scalar right (delta.x * camera_speed)
    let p1 := vec3_add game.camera.position look
    let p2 := vec3_add p1 right
    { game with camera := { game.camera with position := p2 }, prev_double := avg }
  else
    game

/-! ## Touch tracker (`game.c`, lines 195-243) -/

/-- The inner `for(jj...)` loop of `update_touch_points` and `remove_touch_points`: the first
incoming point whose index equals `idx`, if there is one (the loop leaves at the first hit). -/
def first_match (idx : Int) : List (TouchPoint F) → Option (TouchPoint F)
  | [] => none
  | p :: rest => if idx = p.index then some p else first_match idx rest

/-- The block that closes both `add_touch_points` and `remove_touch_points`
(lines 202-208 and 236-242): the reference points are set again from the live contacts. -/
def reseed (game : Game F Q) : Game F Q :=
  if game.num_points = 1 then
    { game with prev_single := (game.points 0).pos }
  else if game.num_points = 2 then
    let avg := vec2_add (game.points 0).pos (game.points 1).pos
    let avg := vec2_mul_scalar avg 0.5
    { game with prev_double := avg }
  else
    game

/-- One pass of the loop of `add_touch_points`: `game->points[game->num_points++] = points[ii]`. -/
def add_step (game : Game F Q) (p : TouchPoint F) : Game F Q :=
  { game with points := Function.update game.points game.num_points p,
              num_points := game.num_points + 1 }

/-- The function `add_touch_points(game, num_touch_points, points)`. -/
def add_touch_points (game : Game F Q) (points : List (TouchPoint F)) : Game F Q :=
  reseed (points.foldl add_step game)

/-- One pass of the outer loop of `update_touch_points`, at slot `ii`. -/
def update_step (points : List (TouchPoint F)) (game : Game F Q) (ii : Nat) : Game F Q :=
  match first_match (game.points ii).index points with
  | some p => { game with points := Function.update game.points ii p }
  | none => game

/-- The function `update_touch_points(game, num_touch_points, points)`. -/
def update_touch_points (game : Game F Q) (points : List (TouchPoint F)) : Game F Q :=
  (List.range game.num_points).foldl (update_step points) game

/-- One pass of the outer loop of `remove_touch_points`, at slot `ii`: on a hit,
`game->points[ii] = game->points[--game->num_points]`.  Inside the loop the count is positive
at every hit (before the pass at `ii` at most `ii` of the `orig_num_points > ii` contacts have
gone), so the subtraction on `Nat` never truncates there. -/
def remove_step (points : List (TouchPoint F)) (game : Game F Q) (ii : Nat) : Game F Q :=
  match first_match (game.points ii).index points with
  | some _ =>
    let n := game.num_points - 1
    { game with num_points := n, points := Function.update game.points ii (game.points n) }
  | none => game

/-- The function `remove_touch_points(game, num_touch_points, points)`: the outer loop runs over
`ii < orig_num_points`, the count on entry. -/
def remove_touch_points (game : Game F Q) (points : List (TouchPoint F)) : Game F Q :=
  let orig_num_points := game.num_points
  reseed ((List.range orig_num_points).foldl (remove_step points) game)

/-- The state after one hit of the loop of `remove_touch_points` at slot `k`, as a closed form:
the count is one less and slot `k` holds the contact of the last live slot. -/
def swapped_out (g : Game F Q) (k : Nat) : Game F Q :=
  { g with num_points := g.num_points - 1,
           points := Function.update g.points k (g.points (g.num_points - 1)) }

/-- The game with the contacts of the slots 0 and 1 exchanged. -/
def swap_contacts (g : Game F Q) : Game F Q :=
  { g with points := Function.update (Function.update g.points 0 (g.points 1)) 1 (g.points 0) }

/-- An access to a slot of `game->points`. -/
inductive Access where
  | read (slot : Nat)
  | write (slot : Nat)
deriving DecidableEq, Repr

/-- The slot of an access. -/
def Access.slot : Access → Nat
  | Access.read i => i
  | Access.write i => i

/-- Whether an access is a store. -/
def Access.isWrite : Access → Bool
  | Access.read _ => false
  | Access.write _ => true

/-- The reads of the inner loop of `remove_touch_points` at slot `ii`: `game->points[ii].index`
is read once for every comparison made, up to and including the first hit. -/
def first_match_reads (ii : Nat) (idx : Int) : List (TouchPoint F) → List Access
  | [] => []
  | p :: rest => Access.read ii :: (if idx = p.index then [] else first_match_reads ii idx rest)

/-- One pass of the outer loop of `remove_touch_points` at slot `ii`, as `remove_step`, with the
accesses to `game->points` appended to a log: the reads of the comparisons and, on a hit, the
read of `points[--num_points]` and the store to `points[ii]`. -/
def remove_step_log (points : List (TouchPoint F)) (st : Game F Q × List Access) (ii : Nat) :
    Game F Q × List Access :=
  let reads := first_match_reads ii (st.1.points ii).index points
  match first_match (st.1.points ii).index points with
  | some _ =>
    let n := st.1.num_points - 1
    ({ st.1 with num_points := n, points := Function.update st.1.points ii (st.1.points n) },
      st.2 ++ reads ++ [Access.read n, Access.write ii])
  | none => (st.1, st.2 ++ reads)

/-- The reads of the closing block (lines 236-242): `points[0]` when one contact is live,
`points[0]` and `points[1]` when two are. -/
def reseed_reads (game : Game F Q) : List Access :=
  if game.num_points = 1 then [Access.read 0]
  else if game.num_points = 2 then [Access.read 0, Access.read 1]
  else []

/-- The function `remove_touch_points` together with the log of its accesses to
`game->points`. -/
def remove_touch_points_log (game : Game F Q) (points : List (TouchPoint F)) :
    Game F Q × List Access :=
  let orig_num_points := game.num_points
  let st := (List.range orig_num_points).foldl (remove_step_log points) (game, [])
  (reseed st.1, st.2 ++ reseed_reads st.1)

end Code

/-! ## Frame orchestrator (`game.c`, lines 144-190) -/

/-- Modelled from the spec: `vec3_create` of `vec_math.h`, the vector with the given
components. -/
def vec3_create {F : Type} (x y z : F) : Vec3 F := ⟨x, y, z⟩

/-- The fields of `Light` (declared in a header that is not under `src/`) that `update_game`
sets: position, colour and falloff size. -/
structure Light (F : Type) where
  position : Vec3 F
  color : Vec3 F
  size : F
deriving DecidableEq, Repr

/-- The calls that `update_game` makes on `game->graphics`, with their arguments.  The bodies
of these functions are not under `src/`; the embedding records the calls in order. -/
inductive GfxCall (F Q Mesh Material : Type) where
  | add_render_command (mesh : Mesh) (material : Material) (t : Transform F Q)
  | add_point_light (light : Light F)
  | set_view_transform (t : Transform F Q)
  | set_sun_light (direction color : Vec3 F)
deriving DecidableEq

/-- The whole `struct Game`: the touch and camera fields of `Game`, the terrain arrays with their
counts (slot maps, as for `points`) and the array `point_lights[8]`.  The `timer` is read through
the `delta_time` argument of `update_game`, the calls on `graphics` are recorded as `GfxCall`s,
and the three materials that only `create_game` fills are left out. -/
structure FullGame (F Q Mesh Material : Type) extends Game F Q where
  terrain_meshes : Nat → Mesh
  num_terrain_meshes : Nat
  terrain_materials : Nat → Material
  num_terrain_materials : Nat
  point_lights : Nat → Light F

section Orchestrator
variable {F : Type} [Add F] [Sub F] [Mul F] [Neg F] [Div F] [Zero F] [One F] [NatCast F]
  [OfScientific F] {Q Mesh Material : Type}

/-- The `angle` of light `ii` in `update_game`: `ii*(k2Pi/8)+degrees`. -/
def light_angle (k2Pi degrees : F) (ii : Nat) : F :=
  (ii : F) * (k2Pi / 8) + degrees

/-- The light that the body of the light loop of `update_game` builds from `angle`
(lines 178-183). -/
def orbit_light (M : QuatMath F Q) (angle : F) : Light F :=
  let q := M.quat_from_euler 0 angle 0
  let direction := M.quat_get_z_axis q
  let position := vec3_mul_scalar direction 7.0
  let position := { position with y := 2.0 }
  { position := position, color := vec3_create 1.0 0.0 0.0, size := 4.0 }

/-- One pass of the terrain loop of `update_game`:
`add_render_command(graphics, terrain_meshes[ii], &terrain_materials[ii], t)`. -/
def terrain_step (game : FullGame F Q Mesh Material) (t : Transform F Q)
    (calls : List (GfxCall F Q Mesh Material)) (ii : Nat) : List (GfxCall F Q Mesh Material) :=
  calls ++ [GfxCall.add_render_command (game.terrain_meshes ii) (game.terrain_materials ii) t]

/-- One pass of the light loop of `update_game`: `point_lights[ii]` is built from the angle and
passed to `add_point_light`. -/
def light_step (M : QuatMath F Q) (k2Pi degrees : F)
    (st : FullGame F Q Mesh Material × List (GfxCall F Q Mesh Material)) (ii : Nat) :
    FullGame F Q Mesh Material × List (GfxCall F Q Mesh Material) :=
  let angle := light_angle k2Pi degrees ii
  let game := { st.1 with point_lights := Function.update st.1.point_lights ii (orbit_light M angle) }
  (game, st.2 ++ [GfxCall.add_point_light (game.point_lights ii)])

/-- The function `update_game(game)`.  The function-local `static float degrees` is passed in and
returned, `delta_time` is the value read from the timer, and the constants `k2Pi` and
`transform_zero` of `vec_math.h` are parameters.  The result is the new value of `degrees`, the
game and the calls made on the graphics subsystem, in order. -/
def update_game (M : QuatMath F Q) (k2Pi : F) (transform_zero : Transform F Q) (degrees : F)
    (game : FullGame F Q Mesh Material) (delta_time : F) :
    F × FullGame F Q Mesh Material × List (GfxCall F Q Mesh Material) :=
  let game := { game with toGame := _control_camera M game.toGame delta_time }
  -- Render scene
  let t := { transform_zero with scale := 0.01 }
  let calls := (List.range game.num_terrain_meshes).foldl (terrain_step game t) []
  -- Render lights
  let degrees := degrees + delta_time * (k2Pi / 8)
  let st := (List.range 8).foldl (light_step M k2Pi degrees) (game, calls)
  let calls := st.2 ++ [GfxCall.set_view_transform st.1.camera,
    GfxCall.set_sun_light (vec3_create 0 (-1) 0) (vec3_create 1 1 1)]
  (degrees, st.1, calls)

/-- The lights passed to `add_point_light` in a list of calls, in order. -/
def submitted_lights : List (GfxCall F Q Mesh Material) → List (Light F)
  | [] => []
  | GfxCall.add_point_light l :: rest => l :: submitted_lights rest
  | _ :: rest => submitted_lights rest

/-- The `(mesh, material, transform)` triples passed to `add_render_command` in a list of calls,
in order. -/
def submitted_draws : List (GfxCall F Q Mesh Material) → List (Mesh × Material × Transform F Q)
  | [] => []
  | GfxCall.add_render_command m mat t :: rest => (m, mat, t) :: submitted_draws rest
  | _ :: rest => submitted_draws rest

/-- Successive calls of `update_game` on one game with the delta-times `ds`: the value of
`degrees` and the game after the last call. -/
def run_ticks (M : QuatMath F Q) (k2Pi : F) (transform_zero : Transform F Q) :
    F → FullGame F Q Mesh Material → List F → F × FullGame F Q Mesh Material
  | degrees, game, [] => (degrees, game)
  | degrees, game, d :: ds =>
    let r := update_game M k2Pi transform_zero degrees game d
    run_ticks M k2Pi transform_zero r.1 r.2.1 ds

/-- Calls of `update_game` on two games `a` and `b` of one process, in the order of `schedule`
(`true`: a tick of `a`; `false`: a tick of `b`), each with its delta-time.  The function-local
static `degrees` is one variable for all calls.  The result is `degrees` and both games after
the last call. -/
def run_two (M : QuatMath F Q) (k2Pi : F) (transform_zero : Transform F Q) :
    F → FullGame F Q Mesh Material → FullGame F Q Mesh Material → List (Bool × F) →
    F × FullGame F Q Mesh Material × FullGame F Q Mesh Material
  | degrees, a, b, [] => (degrees, a, b)
  | degrees, a, b, (true, d) :: rest =>
    let r := update_game M k2Pi transform_zero degrees a d
    run_two M k2Pi transform_zero r.1 r.2.1 b rest
  | degrees, a, b, (false, d) :: rest =>
    let r := update_game M k2Pi transform_zero degrees b d
    run_two M k2Pi transform_zero r.1 a r.2.1 rest

/-- The calls that `destroy_game` makes, with the mesh a `destroy_mesh` is given;
`free_terrain_meshes` is `free(game->terrain_meshes)`, and `destroy_timer`, `destroy_graphics`
are the calls on `game->timer` and `game->graphics`. -/
inductive DestroyCall (Mesh : Type) where
  | destroy_mesh (mesh : Mesh)
  | free_terrain_meshes
  | destroy_timer
  | destroy_graphics
deriving DecidableEq, Repr

/-- The calls of one activation of `destroy_game` before its last statement (lines 147-152):
the mesh loop, then the three releases. -/
def destroy_game_body (game : FullGame F Q Mesh Material) : List (DestroyCall Mesh) :=
  (List.range game.num_terrain_meshes).foldl
    (fun calls ii => calls ++ [DestroyCall.destroy_mesh (game.terrain_meshes ii)]) [] ++
  [DestroyCall.free_terrain_meshes, DestroyCall.destroy_timer, DestroyCall.destroy_graphics]

/-- The function `destroy_game(game)`, with a bound `fuel` on the depth of nested activations.
The last statement of the body (line 153) is the call `destroy_game(game)`.  The result is the
list of calls made when the function returns within the bound, and `none` when it does not. -/
def destroy_game : Nat → FullGame F Q Mesh Material → Option (List (DestroyCall Mesh))
  | 0, _ => none
  | fuel + 1, game =>
    match destroy_game fuel game with
    | none => none
    | some rest => some (destroy_game_body game ++ rest)

/-- The calls made by the first `depth` nested activations of `destroy_game(game)`. -/
def destroy_game_calls : Nat → FullGame F Q Mesh Material → List (DestroyCall Mesh)
  | 0, _ => []
  | depth + 1, game => destroy_game_body game ++ destroy_game_calls depth game

end Orchestrator

/-! ## Graphics subsystem (`graphics.h`) -/

/-- The enumeration `RendererType` of `graphics.h`, without its end marker `MAX_RENDERERS`. -/
inductive RendererType where
  | kForward
  | kLightPrePass
  | kDeferred
deriving DecidableEq, Repr

/-- The value of an enumerator of `RendererType`. -/
def RendererType.toNat : RendererType → Nat
  | RendererType.kForward => 0
  | RendererType.kLightPrePass => 1
  | RendererType.kDeferred => 2

/-- The enumerator `MAX_RENDERERS`, which follows `kDeferred`. -/
def MAX_RENDERERS : Nat := 3

/-- Modelled from the spec: the state of the Graphics subsystem (its definition is in
`graphics.c`, which is not under `src/`): the viewport size, the current renderer strategy and
the accumulated scene. -/
structure Graphics (Scene : Type) where
  width : Int
  height : Int
  renderer_type : RendererType
  scene : Scene

/-- Modelled from the spec: `cycle_renderers` (declared in `graphics.h`, body not under `src/`)
"advances to the next strategy in {Forward, Light-Pre-Pass, Deferred, wrap to Forward}". -/
def cycle_renderers {Scene : Type} (G : Graphics Scene) : Graphics Scene :=
  { G with renderer_type :=
      match G.renderer_type with
      | RendererType.kForward => RendererType.kLightPrePass
      | RendererType.kLightPrePass => RendererType.kDeferred
      | RendererType.kDeferred => RendererType.kForward }

/-! ## Sample data for concrete runs -/

/-- A contact with index `i` at `(x, y)`. -/
def tp (i : Int) (x y : ℚ) : TouchPoint ℚ := ⟨i, ⟨x, y⟩⟩

/-- The slot map holding the contacts of `l` in slots `0 ..`, and a zero contact elsewhere. -/
def slots (l : List (TouchPoint ℚ)) : Nat → TouchPoint ℚ :=
  fun i => l.getD i (tp 0 0 0)

/-- A quaternion with rational components, for concrete runs of the camera controller. -/
structure RatQuat where
  x : ℚ
  y : ℚ
  z : ℚ
  w : ℚ
deriving DecidableEq, Repr

/-- Hamilton product of two rational quaternions. -/
def RatQuat.mul (a b : RatQuat) : RatQuat :=
  ⟨a.w * b.x + a.x * b.w + a.y * b.z - a.z * b.y,
   a.w * b.y - a.x * b.z + a.y * b.w + a.z * b.x,
   a.w * b.z + a.x * b.y - a.y * b.x + a.z * b.w,
   a.w * b.w - a.x * b.x - a.y * b.y - a.z * b.z⟩

/-- A computable instance of the quaternion primitives over the rationals, used to run the model
on concrete inputs.  Products and axes are the usual quaternion formulas; the axis-angle
constructor takes the first-order expansion of sine and cosine (exact at angle `0`, where it is
the identity quaternion). -/
def sampleQuat : QuatMath ℚ RatQuat where
  quat_from_axis_anglef := fun x y z a => ⟨x * (a / 2), y * (a / 2), z * (a / 2), 1⟩
  quat_multiply := RatQuat.mul
  quat_get_x_axis := fun q =>
    ⟨1 - 2 * (q.y * q.y + q.z * q.z), 2 * (q.x * q.y + q.w * q.z), 2 * (q.x * q.z - q.w * q.y)⟩
  quat_get_y_axis := fun q =>
    ⟨2 * (q.x * q.y - q.w * q.z), 1 - 2 * (q.x * q.x + q.z * q.z), 2 * (q.y * q.z + q.w * q.x)⟩
  quat_get_z_axis := fun q =>
    ⟨2 * (q.x * q.z + q.w * q.y), 2 * (q.y * q.z - q.w * q.x), 1 - 2 * (q.x * q.x + q.y * q.y)⟩
  quat_from_euler := fun p y r =>
    RatQuat.mul ⟨0, y / 2, 0, 1⟩ (RatQuat.mul ⟨p / 2, 0, 0, 1⟩ ⟨0, 0, r / 2, 1⟩)

/-- A game over the rationals with identity camera orientation, live contacts `l` and the given
reference points. -/
def sampleGame (l : List (TouchPoint ℚ)) (prev_single prev_double : Vec2 ℚ) : Game ℚ RatQuat :=
  { camera := ⟨⟨4, 2, 15 / 2⟩, ⟨0, 0, 0, 1⟩, 1⟩, points := slots l, num_points := l.length,
    prev_single := prev_single, prev_double := prev_double }

/-- A game whose live contacts are `l`, with zeroed reference points. -/
def tracker (l : List (TouchPoint ℚ)) : Game ℚ RatQuat :=
  sampleGame l ⟨0, 0⟩ ⟨0, 0⟩

/-- Sixteen contacts with the indices `0 .. 15`: a full `points[16]` array. -/
def sixteen : List (TouchPoint ℚ) :=
  (List.range 16).map fun i => tp (Int.ofNat i) 0 0

/-- One live contact (index 7) added at (100,100) to an empty tracker and then moved by
`update_touch_points` to (110,100): `prev_single` is still (100,100), so a look delta of (10,0)
is pending. -/
def pendingLook : Game ℚ RatQuat :=
  update_touch_points (add_touch_points (tracker []) [tp 7 100 100]) [tp 7 110 100]

/-- A sample value for `transform_zero`: origin, identity orientation, scale 1. -/
def sampleZero : Transform ℚ RatQuat := ⟨⟨0, 0, 0⟩, ⟨0, 0, 0, 1⟩, 1⟩

/-- A whole game over the rationals with `n` terrain meshes (handles `0 .. n-1`), `n` materials
(handles `100 .. 100+n-1`), no live contact and zeroed lights. -/
def sampleFull (n : Nat) : FullGame ℚ RatQuat Nat Nat :=
  { toGame := tracker [], terrain_meshes := fun i => i, num_terrain_meshes := n,
    terrain_materials := fun i => 100 + i, num_terrain_materials := n,
    point_lights := fun _ => ⟨⟨0, 0, 0⟩, ⟨0, 0, 0⟩, 0⟩ }

/-! ## Scalars with the special values of `float` -/

/-- The largest finite `float`, `FLT_MAX = (2 - 2^-23) * 2^127`. -/
def FLT_MAX : ℚ := 340282346638528859811704183484516925440

/-- A `float` with its special values: a finite value, the two infinities, or NaN.  Finite
values are kept as exact rationals; the rounding of a finite result to the nearest `float` and
the sign of zero are not modelled, the overflow of a result beyond `FLT_MAX` and the arithmetic
of the infinities and of NaN are. -/
inductive XFloat where
  | fin (q : ℚ)
  | pinf
  | ninf
  | nan
deriving DecidableEq, Repr

/-- The value of an exact result `q`: an infinity when `q` is beyond `FLT_MAX`. -/
def XFloat.ofRat (q : ℚ) : XFloat :=
  if FLT_MAX < q then XFloat.pinf else if q < -FLT_MAX then XFloat.ninf else XFloat.fin q

/-- Whether a value is a finite `float`. -/
def XFloat.isFinite : XFloat → Prop
  | XFloat.fin q => -FLT_MAX ≤ q ∧ q ≤ FLT_MAX
  | _ => False

instance XFloat.decidableIsFinite : (x : XFloat) → Decidable x.isFinite
  | XFloat.fin q => inferInstanceAs (Decidable (-FLT_MAX ≤ q ∧ q ≤ FLT_MAX))
  | XFloat.pinf => inferInstanceAs (Decidable False)
  | XFloat.ninf => inferInstanceAs (Decidable False)
  | XFloat.nan => inferInstanceAs (Decidable False)

/-- Negation. -/
def XFloat.neg : XFloat → XFloat
  | XFloat.fin q => XFloat.fin (-q)
  | XFloat.pinf => XFloat.ninf
  | XFloat.ninf => XFloat.pinf
  | XFloat.nan => XFloat.nan

/-- Addition: opposite infinities give NaN, a finite sum beyond `FLT_MAX` an infinity. -/
def XFloat.add : XFloat → XFloat → XFloat
  | XFloat.fin a, XFloat.fin b => XFloat.ofRat (a + b)
  | XFloat.nan, _ => XFloat.nan
  | _, XFloat.nan => XFloat.nan
  | XFloat.pinf, XFloat.ninf => XFloat.nan
  | XFloat.ninf, XFloat.pinf => XFloat.nan
  | XFloat.pinf, _ => XFloat.pinf
  | _, XFloat.pinf => XFloat.pinf
  | XFloat.ninf, _ => XFloat.ninf
  | _, XFloat.ninf => XFloat.ninf

/-- The product of an infinity of sign `positive` with the finite value `q`: NaN when `q = 0`. -/
def XFloat.infTimes (positive : Bool) (q : ℚ) : XFloat :=
  if q = 0 then XFloat.nan
  else if (0 < q) = (positive = true) then XFloat.pinf else XFloat.ninf

/-- Multiplication: zero times an infinity gives NaN. -/
def XFloat.mul : XFloat → XFloat → XFloat
  | XFloat.fin a, XFloat.fin b => XFloat.ofRat (a * b)
  | XFloat.nan, _ => XFloat.nan
  | _, XFloat.nan => XFloat.nan
  | XFloat.pinf, XFloat.fin b => XFloat.infTimes true b
  | XFloat.ninf, XFloat.fin b => XFloat.infTimes false b
  | XFloat.fin a, XFloat.pinf => XFloat.infTimes true a
  | XFloat.fin a, XFloat.ninf => XFloat.infTimes false a
  | XFloat.pinf, XFloat.pinf => XFloat.pinf
  | XFloat.ninf, XFloat.ninf => XFloat.pinf
  | XFloat.pinf, XFloat.ninf => XFloat.ninf
  | XFloat.ninf, XFloat.pinf => XFloat.ninf

instance : Zero XFloat := ⟨XFloat.fin 0⟩

instance : One XFloat := ⟨XFloat.fin 1⟩

instance : Neg XFloat := ⟨XFloat.neg⟩

instance : Add XFloat := ⟨XFloat.add⟩

instance : Sub XFloat := ⟨fun a b => XFloat.add a (XFloat.neg b)⟩

instance : Mul XFloat := ⟨XFloat.mul⟩

instance : OfScientific XFloat :=
  ⟨fun m s e => XFloat.ofRat (OfScientific.ofScientific m s e)⟩

/-- Both components of a 2D vector are finite. -/
def finite2 (v : Vec2 XFloat) : Prop := v.x.isFinite ∧ v.y.isFinite

/-- All components of a 3D vector are finite. -/
def finite3 (v : Vec3 XFloat) : Prop := v.x.isFinite ∧ v.y.isFinite ∧ v.z.isFinite

instance finite2.decidable (v : Vec2 XFloat) : Decidable (finite2 v) :=
  inferInstanceAs (Decidable (v.x.isFinite ∧ v.y.isFinite))

instance finite3.decidable (v : Vec3 XFloat) : Decidable (finite3 v) :=
  inferInstanceAs (Decidable (v.x.isFinite ∧ v.y.isFinite ∧ v.z.isFinite))

/-- Two contacts (indices 1 and 2) at `(0,0)` and `(10,0)`. -/
def finitePair : List (TouchPoint XFloat) :=
  [⟨1, ⟨XFloat.fin 0, XFloat.fin 0⟩⟩, ⟨2, ⟨XFloat.fin 10, XFloat.fin 0⟩⟩]

/-- Quaternion primitives over `XFloat` for concrete runs: a one-point carrier and the fixed
axes `(1,0,0)`, `(0,1,0)`, `(0,0,1)`. -/
def flatQuat : QuatMath XFloat Unit where
  quat_from_axis_anglef := fun _ _ _ _ => ()
  quat_multiply := fun _ _ => ()
  quat_get_x_axis := fun _ => ⟨1, 0, 0⟩
  quat_get_y_axis := fun _ => ⟨0, 1, 0⟩
  quat_get_z_axis := fun _ => ⟨0, 0, 1⟩
  quat_from_euler := fun _ _ _ => ()

/-- The finite `float` value `3e38`. -/
def big : XFloat := XFloat.fin 300000000000000000000000000000000000000

/-- A game over `XFloat` with the camera at `(4, 2, 7)`, the live contacts `l` in the slots
`0 ..` and the reference points at `(0,0)`. -/
def floatGame (l : List (TouchPoint XFloat)) : Game XFloat Unit :=
  { camera := ⟨⟨XFloat.fin 4, XFloat.fin 2, XFloat.fin 7⟩, (), XFloat.fin 1⟩,
    points := fun i => l.getD i ⟨0, ⟨XFloat.fin 0, XFloat.fin 0⟩⟩,
    num_points := l.length, prev_single := ⟨XFloat.fin 0, XFloat.fin 0⟩,
    prev_double := ⟨XFloat.fin 0, XFloat.fin 0⟩ }

/-- Two contacts (indices 1 and 2), both at `(3e38, 0)`: each coordinate is a finite `float`,
the sum of the two `x` coordinates is not. -/
def overflowPair : List (TouchPoint XFloat) :=
  [⟨1, ⟨big, XFloat.fin 0⟩⟩, ⟨2, ⟨big, XFloat.fin 0⟩⟩]

/-! ## Lemmas on the loops -/

section Lemmas
variable {F : Type} [Add F] [Sub F] [Mul F] [Neg F] [Zero F] [One F] [OfScientific F] {Q : Type}

@[simp] theorem reseed_points (g : Game F Q) : (reseed g).points = g.points := by
  unfold reseed; split_ifs <;> rfl

@[simp] theorem reseed_num_points (g : Game F Q) : (reseed g).num_points = g.num_points := by
  unfold reseed; split_ifs <;> rfl

@[simp] theorem reseed_camera (g : Game F Q) : (reseed g).camera = g.camera := by
  unfold reseed; split_ifs <;> rfl

theorem reseed_prev_single (g : Game F Q) :
    (reseed g).prev_single = if g.num_points = 1 then (g.points 0).pos else g.prev_single := by
  unfold reseed; split_ifs <;> rfl

theorem reseed_prev_double (g : Game F Q) :
    (reseed g).prev_double =
      if g.num_points = 2 then vec2_mul_scalar (vec2_add (g.points 0).pos (g.points 1).pos) 0.5
      else g.prev_double := by
  unfold reseed; split_ifs <;> first | rfl | omega

theorem first_match_none_iff (idx : Int) (b : List (TouchPoint F)) :
    first_match idx b = none ↔ ∀ p ∈ b, idx ≠ p.index := by
  induction b with
  | nil => simp [first_match]
  | cons p ps ih =>
    by_cases h : idx = p.index
    · simp [first_match, h]
    · simp [first_match, h, ih]

theorem first_match_first (idx : Int) (b : List (TouchPoint F)) (j : Nat) (q : TouchPoint F)
    (hj : b[j]? = some q) (hq : q.index = idx)
    (hfirst : ∀ k, k < j → ∀ r, b[k]? = some r → r.index ≠ idx) :
    first_match idx b = some q := by
  induction b generalizing j with
  | nil => simp at hj
  | cons p ps ih =>
    cases j with
    | zero =>
      simp at hj
      simp [first_match, hj, hq]
    | succ j =>
      have hp : idx ≠ p.index := fun e => hfirst 0 (Nat.succ_pos j) p (by simp) e.symm
      simp only [first_match, hp, if_false]
      refine ih j (by simpa using hj) ?_
      intro k hk r hr
      exact hfirst (k + 1) (Nat.succ_lt_succ hk) r (by simpa using hr)

/-! ### The loop of `add_touch_points` -/

theorem add_loop_num_points (b : List (TouchPoint F)) (g : Game F Q) :
    (b.foldl add_step g).num_points = g.num_points + b.length := by
  induction b generalizing g with
  | nil => simp
  | cons p ps ih =>
    rw [List.foldl_cons, ih]
    simp [add_step]
    omega

theorem add_loop_camera (b : List (TouchPoint F)) (g : Game F Q) :
    (b.foldl add_step g).camera = g.camera := by
  induction b generalizing g with
  | nil => rfl
  | cons p ps ih => rw [List.foldl_cons, ih]; rfl

theorem add_loop_prev_single (b : List (TouchPoint F)) (g : Game F Q) :
    (b.foldl add_step g).prev_single = g.prev_single := by
  induction b generalizing g with
  | nil => rfl
  | cons p ps ih => rw [List.foldl_cons, ih]; rfl

theorem add_loop_prev_double (b : List (TouchPoint F)) (g : Game F Q) :
    (b.foldl add_step g).prev_double = g.prev_double := by
  induction b generalizing g with
  | nil => rfl
  | cons p ps ih => rw [List.foldl_cons, ih]; rfl

theorem add_loop_points_lt (b : List (TouchPoint F)) (g : Game F Q) (i : Nat)
    (hi : i < g.num_points) : (b.foldl add_step g).points i = g.points i := by
  induction b generalizing g with
  | nil => rfl
  | cons p ps ih =>
    rw [List.foldl_cons, ih (add_step g p) (by simp [add_step]; omega)]
    simp [add_step, Function.update, Nat.ne_of_lt hi]

theorem add_loop_points_new (b : List (TouchPoint F)) (g : Game F Q) (j : Nat) (q : TouchPoint F)
    (hj : b[j]? = some q) : (b.foldl add_step g).points (g.num_points + j) = q := by
  induction b generalizing g j with
  | nil => simp at hj
  | cons p ps ih =>
    rw [List.foldl_cons]
    cases j with
    | zero =>
      simp at hj
      rw [add_loop_points_lt ps (add_step g p) _ (by simp [add_step])]
      simp [add_step, hj]
    | succ j =>
      have h := ih (add_step g p) j (by simpa using hj)
      have e : (add_step g p).num_points + j = g.num_points + (j + 1) := by
        simp [add_step]; omega
      rw [e] at h
      exact h

/-! ### The loop of `update_touch_points` -/

theorem update_step_points (b : List (TouchPoint F)) (g : Game F Q) (m i : Nat) :
    (update_step b g m).points i =
      if i = m then (first_match (g.points m).index b).getD (g.points m) else g.points i := by
  unfold update_step
  cases first_match (g.points m).index b with
  | none => by_cases h : i = m <;> simp [h]
  | some q => by_cases h : i = m <;> simp [h, Function.update]

theorem update_step_frame (b : List (TouchPoint F)) (g : Game F Q) (m : Nat) :
    (update_step b g m).num_points = g.num_points ∧ (update_step b g m).camera = g.camera ∧
    (update_step b g m).prev_single = g.prev_single ∧
    (update_step b g m).prev_double = g.prev_double := by
  unfold update_step
  cases first_match (g.points m).index b <;> simp

theorem update_loop_spec (b : List (TouchPoint F)) (g : Game F Q) (m : Nat) :
    ((List.range m).foldl (update_step b) g).num_points = g.num_points ∧
    ((List.range m).foldl (update_step b) g).camera = g.camera ∧
    ((List.range m).foldl (update_step b) g).prev_single = g.prev_single ∧
    ((List.range m).foldl (update_step b) g).prev_double = g.prev_double ∧
    ∀ i, ((List.range m).foldl (update_step b) g).points i =
      if i < m then (first_match (g.points i).index b).getD (g.points i) else g.points i := by
  induction m with
  | zero => simp
  | succ m ih =>
    obtain ⟨h1, h2, h3, h4, h5⟩ := ih
    rw [List.range_succ, List.foldl_append, List.foldl_cons, List.foldl_nil]
    obtain ⟨f1, f2, f3, f4⟩ := update_step_frame b ((List.range m).foldl (update_step b) g) m
    refine ⟨f1.trans h1, f2.trans h2, f3.trans h3, f4.trans h4, ?_⟩
    intro i
    rw [update_step_points, h5 m, h5 i]
    by_cases hi2 : i = m
    · subst hi2; simp
    · by_cases hi : i < m
      · simp [hi, hi2, Nat.lt_succ_of_lt hi]
      · have : ¬ i < m + 1 := by omega
        simp [hi, hi2, this]

/-! ### The loop of `remove_touch_points` -/

theorem remove_step_no_match (b : List (TouchPoint F)) (g : Game F Q) (ii : Nat)
    (h : first_match (g.points ii).index b = none) : remove_step b g ii = g := by
  unfold remove_step; rw [h]

theorem remove_loop_no_match (b : List (TouchPoint F)) (g : Game F Q) (m : Nat)
    (h : ∀ i, i < m → first_match (g.points i).index b = none) :
    (List.range m).foldl (remove_step b) g = g := by
  induction m with
  | zero => simp
  | succ m ih =>
    rw [List.range_succ, List.foldl_append, List.foldl_cons, List.foldl_nil,
      ih (fun i hi => h i (Nat.lt_succ_of_lt hi))]
    exact remove_step_no_match b g m (h m (Nat.lt_succ_self m))

theorem remove_loop_single (g : Game F Q) (p : TouchPoint F) (k : Nat)
    (hdistinct : ∀ i, i < g.num_points → ∀ j, j < g.num_points →
      (g.points i).index = (g.points j).index → i = j)
    (hk : k < g.num_points) (hidx : (g.points k).index = p.index) (m : Nat)
    (hm : m ≤ g.num_points) :
    (List.range m).foldl (remove_step [p]) g = if m ≤ k then g else swapped_out g k := by
  induction m with
  | zero => simp
  | succ m ih =>
    rw [List.range_succ, List.foldl_append, List.foldl_cons, List.foldl_nil, ih (by omega)]
    have hne : ∀ i, i < g.num_points → i ≠ k → (g.points i).index ≠ p.index := by
      intro i hi hik e
      exact hik (hdistinct i hi k hk (e.trans hidx.symm))
    rcases Nat.lt_trichotomy m k with hlt | heq | hgt
    · have h1 : m ≤ k := by omega
      have h2 : m + 1 ≤ k := by omega
      rw [if_pos h1, if_pos h2]
      apply remove_step_no_match
      simp [first_match, hne m (by omega) (by omega)]
    · subst heq
      have h2 : ¬ m + 1 ≤ m := by omega
      rw [if_pos (Nat.le_refl m), if_neg h2]
      simp [remove_step, first_match, hidx, swapped_out]
    · have h1 : ¬ m ≤ k := by omega
      have h2 : ¬ m + 1 ≤ k := by omega
      rw [if_neg h1, if_neg h2]
      apply remove_step_no_match
      have hmk : m ≠ k := by omega
      simp [swapped_out, Function.update, hmk, first_match, hne m (by omega) hmk]

/-! ### The camera controller -/

theorem control_look (M : QuatMath F Q) (g : Game F Q) (dt : F) (h : g.num_points = 1) :
    _control_camera M g dt =
      { g with
        camera := { g.camera with
          orientation := M.quat_multiply
            (M.quat_from_axis_anglef 1 0 0 (dt * (look_delta g).y * 0.2))
            (M.quat_multiply g.camera.orientation
              (M.quat_from_axis_anglef 0 1 0 (dt * (look_delta g).x * 0.2))) },
        prev_single := (g.points 0).pos } := by
  simp [_control_camera, h]

theorem control_pan (M : QuatMath F Q) (g : Game F Q) (dt : F) (h : g.num_points = 2) :
    _control_camera M g dt =
      { g with
        camera := { g.camera with
          position := vec3_add
            (vec3_add g.camera.position
              (vec3_mul_scalar (M.quat_get_z_axis g.camera.orientation)
                (-(pan_delta g).y * 0.1)))
            (vec3_mul_scalar (M.quat_get_x_axis g.camera.orientation) ((pan_delta g).x * 0.1)) },
        prev_double := pan_avg g } := by
  simp [_control_camera, h]

theorem control_idle (M : QuatMath F Q) (g : Game F Q) (dt : F) (h1 : g.num_points ≠ 1)
    (h2 : g.num_points ≠ 2) : _control_camera M g dt = g := by
  simp [_control_camera, h1, h2]

/-! ### Runs of the tracker used by the scenarios -/

theorem add_one_to_empty (g : Game F Q) (p : TouchPoint F) (h : g.num_points = 0) :
    (add_touch_points g [p]).num_points = 1 ∧ (add_touch_points g [p]).points 0 = p ∧
    (add_touch_points g [p]).prev_single = p.pos ∧
    (add_touch_points g [p]).camera = g.camera := by
  simp [add_touch_points, add_step, reseed_prev_single, h]

theorem add_two_to_empty (g : Game F Q) (p q : TouchPoint F) (h : g.num_points = 0) :
    (add_touch_points g [p, q]).num_points = 2 ∧ (add_touch_points g [p, q]).points 0 = p ∧
    (add_touch_points g [p, q]).points 1 = q ∧
    (add_touch_points g [p, q]).prev_double = vec2_mul_scalar (vec2_add p.pos q.pos) 0.5 ∧
    (add_touch_points g [p, q]).camera = g.camera := by
  simp [add_touch_points, add_step, reseed_prev_double, h, Function.update]

theorem update_one_live (g : Game F Q) (p : TouchPoint F) (h : g.num_points = 1)
    (hidx : (g.points 0).index = p.index) :
    (update_touch_points g [p]).num_points = 1 ∧ (update_touch_points g [p]).points 0 = p ∧
    (update_touch_points g [p]).prev_single = g.prev_single ∧
    (update_touch_points g [p]).camera = g.camera := by
  obtain ⟨h1, h2, h3, _, h5⟩ := update_loop_spec [p] g g.num_points
  unfold update_touch_points
  refine ⟨h1.trans h, ?_, h3, h2⟩
  rw [h5 0]
  simp [h, first_match, hidx]

theorem update_two_live (g : Game F Q) (p q : TouchPoint F) (h : g.num_points = 2)
    (hp : (g.points 0).index = p.index) (hq : (g.points 1).index = q.index)
    (hpq : p.index ≠ q.index) :
    (update_touch_points g [p, q]).num_points = 2 ∧
    (update_touch_points g [p, q]).points 0 = p ∧ (update_touch_points g [p, q]).points 1 = q ∧
    (update_touch_points g [p, q]).prev_double = g.prev_double ∧
    (update_touch_points g [p, q]).camera = g.camera := by
  obtain ⟨h1, h2, _, h4, h5⟩ := update_loop_spec [p, q] g g.num_points
  unfold update_touch_points
  refine ⟨h1.trans h, ?_, ?_, h4, h2⟩
  · rw [h5 0]
    simp [h, first_match, hp]
  · rw [h5 1]
    have hne : ¬ q.index = p.index := fun e => hpq e.symm
    simp [h, first_match, hq, hne]

/-! ### Several updates between two ticks -/

end Lemmas

/-! ## Lemmas on `XFloat` -/

section FloatLemmas
variable {Q : Type}

theorem FLT_MAX_pos : (0 : ℚ) < FLT_MAX := by
  norm_num [FLT_MAX]

theorem XFloat.isFinite_iff (x : XFloat) :
    x.isFinite ↔ ∃ q : ℚ, x = XFloat.fin q ∧ -FLT_MAX ≤ q ∧ q ≤ FLT_MAX := by
  cases x <;> simp [XFloat.isFinite]

theorem XFloat.ofRat_of_range (q : ℚ) (h1 : -FLT_MAX ≤ q) (h2 : q ≤ FLT_MAX) :
    XFloat.ofRat q = XFloat.fin q := by
  simp [XFloat.ofRat, not_lt.2 h1, not_lt.2 h2]

theorem XFloat.ofRat_zero : XFloat.ofRat 0 = XFloat.fin 0 :=
  XFloat.ofRat_of_range 0 (by linarith [FLT_MAX_pos]) (le_of_lt FLT_MAX_pos)

theorem XFloat.sub_self_of_finite (x : XFloat) (hx : x.isFinite) : x - x = 0 := by
  obtain ⟨q, rfl, _, _⟩ := (XFloat.isFinite_iff x).1 hx
  show XFloat.ofRat (q + -q) = XFloat.fin 0
  rw [add_neg_cancel, XFloat.ofRat_zero]

theorem XFloat.mul_zero_of_finite (x : XFloat) (hx : x.isFinite) : x * 0 = 0 := by
  obtain ⟨q, rfl, _, _⟩ := (XFloat.isFinite_iff x).1 hx
  show XFloat.ofRat (q * 0) = XFloat.fin 0
  rw [mul_zero, XFloat.ofRat_zero]

theorem XFloat.zero_mul_of_finite (x : XFloat) (hx : x.isFinite) : 0 * x = 0 := by
  obtain ⟨q, rfl, _, _⟩ := (XFloat.isFinite_iff x).1 hx
  show XFloat.ofRat (0 * q) = XFloat.fin 0
  rw [zero_mul, XFloat.ofRat_zero]

theorem XFloat.neg_zero_eq : -(0 : XFloat) = 0 := by
  show XFloat.fin (-0) = XFloat.fin 0
  rw [neg_zero]

theorem XFloat.add_zero_of_finite (x : XFloat) (hx : x.isFinite) : x + 0 = x := by
  obtain ⟨q, rfl, h1, h2⟩ := (XFloat.isFinite_iff x).1 hx
  show XFloat.ofRat (q + 0) = XFloat.fin q
  rw [add_zero, XFloat.ofRat_of_range q h1 h2]

theorem XFloat.lit_02 : (0.2 : XFloat).isFinite := by
  show (XFloat.ofRat (0.2 : ℚ)).isFinite
  rw [XFloat.ofRat_of_range _ (by norm_num [FLT_MAX]) (by norm_num [FLT_MAX])]
  exact ⟨by norm_num [FLT_MAX], by norm_num [FLT_MAX]⟩

theorem XFloat.lit_01 : (0.1 : XFloat).isFinite := by
  show (XFloat.ofRat (0.1 : ℚ)).isFinite
  rw [XFloat.ofRat_of_range _ (by norm_num [FLT_MAX]) (by norm_num [FLT_MAX])]
  exact ⟨by norm_num [FLT_MAX], by norm_num [FLT_MAX]⟩

theorem XFloat.half_isFinite (x : XFloat) (hx : x.isFinite) : (x * 0.5).isFinite := by
  obtain ⟨q, rfl, h1, h2⟩ := (XFloat.isFinite_iff x).1 hx
  have hp := FLT_MAX_pos
  have e : (0.5 : XFloat) = XFloat.fin (1 / 2) := by
    show XFloat.ofRat (0.5 : ℚ) = XFloat.fin (1 / 2)
    rw [XFloat.ofRat_of_range _ (by norm_num [FLT_MAX]) (by norm_num [FLT_MAX])]
    norm_num
  rw [e]
  show (XFloat.ofRat (q * (1 / 2))).isFinite
  rw [XFloat.ofRat_of_range _ (by linarith) (by linarith)]
  exact ⟨by linarith, by linarith⟩

theorem look_zero (g : Game XFloat Q) (hs : g.prev_single = (g.points 0).pos)
    (hf : finite2 (g.points 0).pos) : look_delta g = ⟨0, 0⟩ := by
  simp only [look_delta, hs, vec2_sub, XFloat.sub_self_of_finite _ hf.1,
    XFloat.sub_self_of_finite _ hf.2]

theorem look_tick_zero (M : QuatMath XFloat Q) (g : Game XFloat Q) (dt : XFloat)
    (h : g.num_points = 1) (hd : look_delta g = ⟨0, 0⟩) (hdt : dt.isFinite) :
    (_control_camera M g dt).camera.position = g.camera.position ∧
    (_control_camera M g dt).camera.scale = g.camera.scale ∧
    (_control_camera M g dt).camera.orientation =
      M.quat_multiply (M.quat_from_axis_anglef 1 0 0 0)
        (M.quat_multiply g.camera.orientation (M.quat_from_axis_anglef 0 1 0 0)) := by
  rw [control_look M g dt h, hd]
  refine ⟨rfl, rfl, ?_⟩
  simp only [XFloat.mul_zero_of_finite dt hdt, XFloat.zero_mul_of_finite _ XFloat.lit_02]

theorem pan_zero (g : Game XFloat Q) (hs : g.prev_double = pan_avg g)
    (hf : finite2 (vec2_add (g.points 0).pos (g.points 1).pos)) : pan_delta g = ⟨0, 0⟩ := by
  have hx := XFloat.half_isFinite _ hf.1
  have hy := XFloat.half_isFinite _ hf.2
  simp only [pan_delta, hs, pan_avg, vec2_sub, vec2_mul_scalar,
    XFloat.sub_self_of_finite _ hx, XFloat.sub_self_of_finite _ hy]

theorem pan_tick_zero (M : QuatMath XFloat Q) (g : Game XFloat Q) (dt : XFloat)
    (h : g.num_points = 2) (hd : pan_delta g = ⟨0, 0⟩) (hp : finite3 g.camera.position)
    (hz : finite3 (M.quat_get_z_axis g.camera.orientation))
    (hx : finite3 (M.quat_get_x_axis g.camera.orientation)) :
    (_control_camera M g dt).camera = g.camera := by
  rw [control_pan M g dt h, hd]
  simp only [vec3_add, vec3_mul_scalar, XFloat.neg_zero_eq,
    XFloat.zero_mul_of_finite _ XFloat.lit_01,
    XFloat.mul_zero_of_finite _ hz.1, XFloat.mul_zero_of_finite _ hz.2.1,
    XFloat.mul_zero_of_finite _ hz.2.2, XFloat.mul_zero_of_finite _ hx.1,
    XFloat.mul_zero_of_finite _ hx.2.1, XFloat.mul_zero_of_finite _ hx.2.2,
    XFloat.add_zero_of_finite _ hp.1, XFloat.add_zero_of_finite _ hp.2.1,
    XFloat.add_zero_of_finite _ hp.2.2]

end FloatLemmas

/-! ## Lemmas on the frame orchestrator -/

section OrchestratorLemmas
variable {F : Type} [LinearOrderedField F] {Q Mesh Material : Type}

theorem terrain_loop_calls (game : FullGame F Q Mesh Material) (t : Transform F Q)
    (l : List Nat) (init : List (GfxCall F Q Mesh Material)) :
    l.foldl (terrain_step game t) init =
      init ++ l.map (fun ii =>
        GfxCall.add_render_command (game.terrain_meshes ii) (game.terrain_materials ii) t) := by
  induction l generalizing init with
  | nil => simp
  | cons a l ih => simp [List.foldl_cons, ih, terrain_step]

theorem light_loop_calls (M : QuatMath F Q) (k2Pi degrees : F) (l : List Nat)
    (st : FullGame F Q Mesh Material × List (GfxCall F Q Mesh Material)) :
    (l.foldl (light_step M k2Pi degrees) st).2 =
      st.2 ++ l.map (fun ii =>
        GfxCall.add_point_light (orbit_light M (light_angle k2Pi degrees ii))) := by
  induction l generalizing st with
  | nil => simp
  | cons a l ih => simp [List.foldl_cons, ih, light_step]

theorem light_loop_frame (M : QuatMath F Q) (k2Pi degrees : F) (l : List Nat)
    (st : FullGame F Q Mesh Material × List (GfxCall F Q Mesh Material)) :
    (l.foldl (light_step M k2Pi degrees) st).1.toGame = st.1.toGame ∧
    (l.foldl (light_step M k2Pi degrees) st).1.terrain_meshes = st.1.terrain_meshes ∧
    (l.foldl (light_step M k2Pi degrees) st).1.num_terrain_meshes = st.1.num_terrain_meshes ∧
    (l.foldl (light_step M k2Pi degrees) st).1.terrain_materials = st.1.terrain_materials ∧
    (l.foldl (light_step M k2Pi degrees) st).1.num_terrain_materials =
      st.1.num_terrain_materials := by
  induction l generalizing st with
  | nil => simp
  | cons a l ih =>
    rw [List.foldl_cons]
    obtain ⟨h1, h2, h3, h4, h5⟩ := ih (light_step M k2Pi degrees st a)
    exact ⟨h1, h2, h3, h4, h5⟩

theorem update_game_degrees (M : QuatMath F Q) (k2Pi : F) (tz : Transform F Q) (degrees : F)
    (game : FullGame F Q Mesh Material) (dt : F) :
    (update_game M k2Pi tz degrees game dt).1 = degrees + dt * (k2Pi / 8) := rfl

theorem update_game_toGame (M : QuatMath F Q) (k2Pi : F) (tz : Transform F Q) (degrees : F)
    (game : FullGame F Q Mesh Material) (dt : F) :
    (update_game M k2Pi tz degrees game dt).2.1.toGame = _control_camera M game.toGame dt := by
  unfold update_game
  exact (light_loop_frame M k2Pi _ _ _).1

theorem update_game_calls (M : QuatMath F Q) (k2Pi : F) (tz : Transform F Q) (degrees : F)
    (game : FullGame F Q Mesh Material) (dt : F) :
    (update_game M k2Pi tz degrees game dt).2.2 =
      (List.range game.num_terrain_meshes).map (fun ii =>
        GfxCall.add_render_command (game.terrain_meshes ii) (game.terrain_materials ii)
          { tz with scale := 0.01 }) ++
      (List.range 8).map (fun ii =>
        GfxCall.add_point_light
          (orbit_light M (light_angle k2Pi (degrees + dt * (k2Pi / 8)) ii))) ++
      [GfxCall.set_view_transform (_control_camera M game.toGame dt).camera,
       GfxCall.set_sun_light (vec3_create 0 (-1) 0) (vec3_create 1 1 1)] := by
  unfold update_game
  simp only [light_loop_calls, terrain_loop_calls, (light_loop_frame M k2Pi _ _ _).1,
    List.nil_append]

theorem submitted_lights_append (a b : List (GfxCall F Q Mesh Material)) :
    submitted_lights (a ++ b) = submitted_lights a ++ submitted_lights b := by
  induction a with
  | nil => rfl
  | cons c a ih => cases c <;> simp [submitted_lights, ih]

theorem submitted_draws_append (a b : List (GfxCall F Q Mesh Material)) :
    submitted_draws (a ++ b) = submitted_draws a ++ submitted_draws b := by
  induction a with
  | nil => rfl
  | cons c a ih => cases c <;> simp [submitted_draws, ih]

theorem submitted_lights_lights (f : Nat → Light F) (l : List Nat) :
    submitted_lights (l.map fun ii => (GfxCall.add_point_light (f ii) : GfxCall F Q Mesh Material))
      = l.map f := by
  induction l with
  | nil => rfl
  | cons a l ih => simp [submitted_lights, ih]

theorem submitted_lights_draws (f : Nat → Mesh) (m : Nat → Material) (t : Transform F Q)
    (l : List Nat) :
    submitted_lights (l.map fun ii =>
      (GfxCall.add_render_command (f ii) (m ii) t : GfxCall F Q Mesh Material)) = [] := by
  induction l with
  | nil => rfl
  | cons a l ih => simp [submitted_lights, ih]

theorem submitted_draws_draws (f : Nat → Mesh) (m : Nat → Material) (t : Transform F Q)
    (l : List Nat) :
    submitted_draws (l.map fun ii =>
      (GfxCall.add_render_command (f ii) (m ii) t : GfxCall F Q Mesh Material)) =
      l.map fun ii => (f ii, m ii, t) := by
  induction l with
  | nil => rfl
  | cons a l ih => simp [submitted_draws, ih]

theorem submitted_draws_lights (f : Nat → Light F) (l : List Nat) :
    submitted_draws (l.map fun ii => (GfxCall.add_point_light (f ii) : GfxCall F Q Mesh Material))
      = [] := by
  induction l with
  | nil => rfl
  | cons a l ih => simp [submitted_draws, ih]

theorem update_game_lights (M : QuatMath F Q) (k2Pi : F) (tz : Transform F Q) (degrees : F)
    (game : FullGame F Q Mesh Material) (dt : F) :
    submitted_lights (update_game M k2Pi tz degrees game dt).2.2 =
      (List.range 8).map (fun ii =>
        orbit_light M (light_angle k2Pi (degrees + dt * (k2Pi / 8)) ii)) := by
  rw [update_game_calls, submitted_lights_append, submitted_lights_append,
    submitted_lights_draws, submitted_lights_lights]
  simp [submitted_lights]

theorem update_game_draws (M : QuatMath F Q) (k2Pi : F) (tz : Transform F Q) (degrees : F)
    (game : FullGame F Q Mesh Material) (dt : F) :
    submitted_draws (update_game M k2Pi tz degrees game dt).2.2 =
      (List.range game.num_terrain_meshes).map (fun ii =>
        (game.terrain_meshes ii, game.terrain_materials ii,
          ({ tz with scale := 0.01 } : Transform F Q))) := by
  rw [update_game_calls, submitted_draws_append, submitted_draws_append,
    submitted_draws_draws, submitted_draws_lights]
  simp [submitted_draws]

theorem run_ticks_degrees (M : QuatMath F Q) (k2Pi : F) (tz : Transform F Q) (degrees : F)
    (game : FullGame F Q Mesh Material) (ds : List F) :
    (run_ticks M k2Pi tz degrees game ds).1 = degrees + ds.sum * (k2Pi / 8) := by
  induction ds generalizing degrees game with
  | nil => simp [run_ticks]
  | cons d ds ih =>
    simp only [run_ticks, ih, update_game_degrees, List.sum_cons]
    ring

theorem destroy_game_none (fuel : Nat) (game : FullGame F Q Mesh Material) :
    destroy_game fuel game = none := by
  induction fuel with
  | zero => rfl
  | succ n ih => simp [destroy_game, ih]

theorem swap_contacts_pan_avg (g : Game F Q) : pan_avg (swap_contacts g) = pan_avg g := by
  simp [pan_avg, swap_contacts, vec2_add, Function.update, add_comm]

theorem run_two_degrees (M : QuatMath F Q) (k2Pi : F) (tz : Transform F Q) (degrees : F)
    (a b : FullGame F Q Mesh Material) (schedule : List (Bool × F)) :
    (run_two M k2Pi tz degrees a b schedule).1 =
      degrees + (schedule.map Prod.snd).sum * (k2Pi / 8) := by
  induction schedule generalizing degrees a b with
  | nil => simp [run_two]
  | cons t rest ih =>
    obtain ⟨w, d⟩ := t
    cases w
    · simp only [run_two, ih, update_game_degrees, List.map_cons, List.sum_cons]
      ring
    · simp only [run_two, ih, update_game_degrees, List.map_cons, List.sum_cons]
      ring

theorem sampleQuat_light_x (a : ℚ) : (orbit_light sampleQuat a).position.x = a * 7 := by
  simp only [orbit_light, sampleQuat, RatQuat.mul, vec3_mul_scalar]
  ring

/-! ### The access log of `remove_touch_points` -/

theorem first_match_reads_mem (ii : Nat) (idx : Int) (l : List (TouchPoint F)) (a : Access)
    (h : a ∈ first_match_reads ii idx l) : a = Access.read ii := by
  induction l with
  | nil => simp [first_match_reads] at h
  | cons p ps ih =>
    simp only [first_match_reads, List.mem_cons] at h
    rcases h with h | h
    · exact h
    · by_cases hp : idx = p.index
      · simp [hp] at h
      · simp only [hp, if_false] at h
        exact ih h

theorem first_match_reads_writes (ii : Nat) (idx : Int) (l : List (TouchPoint F)) :
    (first_match_reads ii idx l).countP Access.isWrite = 0 := by
  rw [List.countP_eq_zero]
  intro a ha
  rw [first_match_reads_mem ii idx l a ha]
  simp [Access.isWrite]

theorem remove_step_log_spec (b : List (TouchPoint F)) (st : Game F Q × List Access)
    (m orig : Nat) (hm : m < orig) (hle : st.1.num_points ≤ orig)
    (hge : orig ≤ st.1.num_points + m)
    (hw : st.1.num_points + st.2.countP Access.isWrite = orig)
    (hslots : ∀ a ∈ st.2, a.slot < orig) :
    (remove_step_log b st m).1 = remove_step b st.1 m ∧
    (remove_step_log b st m).1.num_points ≤ orig ∧
    orig ≤ (remove_step_log b st m).1.num_points + (m + 1) ∧
    (remove_step_log b st m).1.num_points +
      (remove_step_log b st m).2.countP Access.isWrite = orig ∧
    ∀ a ∈ (remove_step_log b st m).2, a.slot < orig := by
  have hreads : ∀ a ∈ first_match_reads m (st.1.points m).index b, a.slot < orig := by
    intro a ha
    rw [first_match_reads_mem _ _ _ a ha]
    exact hm
  unfold remove_step_log remove_step
  cases first_match (st.1.points m).index b with
  | none =>
    dsimp only
    refine ⟨rfl, hle, by omega, ?_, ?_⟩
    · simp only [List.countP_append, first_match_reads_writes]
      omega
    · intro a ha
      rcases List.mem_append.1 ha with h | h
      · exact hslots a h
      · exact hreads a h
  | some q =>
    dsimp only
    refine ⟨rfl, ?_, ?_, ?_, ?_⟩
    · show st.1.num_points - 1 ≤ orig
      omega
    · show orig ≤ st.1.num_points - 1 + (m + 1)
      omega
    · show st.1.num_points - 1 + _ = orig
      simp only [List.countP_append, first_match_reads_writes, List.countP_cons,
        List.countP_nil, Access.isWrite]
      simp
      omega
    · intro a ha
      rcases List.mem_append.1 ha with h | h
      · rcases List.mem_append.1 h with h | h
        · exact hslots a h
        · exact hreads a h
      · simp only [List.mem_cons, List.mem_singleton, List.not_mem_nil, or_false] at h
        rcases h with h | h
        · rw [h]
          show st.1.num_points - 1 < orig
          omega
        · rw [h]
          exact hm

theorem remove_loop_log_spec (b : List (TouchPoint F)) (g : Game F Q) (m : Nat)
    (hm : m ≤ g.num_points) :
    ((List.range m).foldl (remove_step_log b) (g, [])).1 =
      (List.range m).foldl (remove_step b) g ∧
    ((List.range m).foldl (remove_step_log b) (g, [])).1.num_points ≤ g.num_points ∧
    g.num_points ≤ ((List.range m).foldl (remove_step_log b) (g, [])).1.num_points + m ∧
    ((List.range m).foldl (remove_step_log b) (g, [])).1.num_points +
      ((List.range m).foldl (remove_step_log b) (g, [])).2.countP Access.isWrite =
      g.num_points ∧
    ∀ a ∈ ((List.range m).foldl (remove_step_log b) (g, [])).2, a.slot < g.num_points := by
  induction m with
  | zero => simp
  | succ m ih =>
    obtain ⟨h1, h2, h3, h4, h5⟩ := ih (by omega)
    rw [List.range_succ, List.foldl_append, List.foldl_append, List.foldl_cons, List.foldl_nil,
      List.foldl_cons, List.foldl_nil]
    obtain ⟨k1, k2, k3, k4, k5⟩ := remove_step_log_spec b
      ((List.range m).foldl (remove_step_log b) (g, [])) m g.num_points (by omega) h2 h3 h4 h5
    exact ⟨by rw [k1, h1], k2, k3, k4, k5⟩

theorem reseed_reads_spec (g : Game F Q) :
    (reseed_reads g).countP Access.isWrite = 0 ∧ ∀ a ∈ reseed_reads g, a.slot < g.num_points := by
  unfold reseed_reads
  split_ifs with h1 h2
  · simp [Access.isWrite, Access.slot, h1]
  · simp [Access.isWrite, Access.slot, h2]
  · simp

end OrchestratorLemmas

/-! ## The claims -/

section Claims
variable {F : Type} [LinearOrderedField F] {Q : Type}

/-- C1, evaluated at live contacts `[A, B, C]` (indices 1, 2, 3) and the batch `{A, C}`:
`remove_touch_points` leaves one live contact, and that contact is `C`, which the batch names,
while `B`, which the batch does not name, is no longer live.  After slot 0 has taken the copy of
`C`, the outer loop still visits the stale slot 2 and swaps `B` over it; the copy in slot 0 is
never examined. -/
theorem C1_batch_remove_keeps_named_contact :
    (tracker [tp 1 0 0, tp 2 5 5, tp 3 9 9]).num_points = 3 ∧
    (remove_touch_points (tracker [tp 1 0 0, tp 2 5 5, tp 3 9 9])
      [tp 1 0 0, tp 3 9 9]).num_points = 1 ∧
    (remove_touch_points (tracker [tp 1 0 0, tp 2 5 5, tp 3 9 9])
      [tp 1 0 0, tp 3 9 9]).points 0 = tp 3 9 9 := by
  decide

/-- C2: when the live contacts have pairwise distinct indices and the batch is one point whose
index is that of the live contact in slot `k`, `remove_touch_points` lowers `num_points` by one,
no live contact has the removed index afterwards, every other contact that was live is still
live with the same index and position, and nothing else is live. -/
theorem C2_single_removal (g : Game F Q) (p : TouchPoint F) (k : Nat)
    (hdistinct : ∀ i, i < g.num_points → ∀ j, j < g.num_points →
      (g.points i).index = (g.points j).index → i = j)
    (hk : k < g.num_points) (hidx : (g.points k).index = p.index) :
    (remove_touch_points g [p]).num_points + 1 = g.num_points ∧
    (∀ j, j < (remove_touch_points g [p]).num_points →
      ((remove_touch_points g [p]).points j).index ≠ p.index) ∧
    (∀ i, i < g.num_points → i ≠ k →
      ∃ j, j < (remove_touch_points g [p]).num_points ∧
        (remove_touch_points g [p]).points j = g.points i) ∧
    (∀ j, j < (remove_touch_points g [p]).num_points →
      ∃ i, i < g.num_points ∧ i ≠ k ∧ (remove_touch_points g [p]).points j = g.points i) := by
  have hloop := remove_loop_single g p k hdistinct hk hidx g.num_points (Nat.le_refl _)
  rw [if_neg (by omega)] at hloop
  have hn : (remove_touch_points g [p]).num_points = g.num_points - 1 := by
    simp [remove_touch_points, hloop, swapped_out]
  have hp : (remove_touch_points g [p]).points =
      Function.update g.points k (g.points (g.num_points - 1)) := by
    simp [remove_touch_points, hloop, swapped_out]
  rw [hn, hp]
  refine ⟨by omega, ?_, ?_, ?_⟩
  · intro j hj e
    by_cases hjk : j = k
    · subst hjk
      rw [Function.update_same] at e
      have := hdistinct (g.num_points - 1) (by omega) j hk (e.trans hidx.symm)
      omega
    · rw [Function.update_noteq hjk] at e
      exact hjk (hdistinct j (by omega) k hk (e.trans hidx.symm))
  · intro i hi hik
    by_cases hlast : i = g.num_points - 1
    · refine ⟨k, by omega, ?_⟩
      rw [Function.update_same, hlast]
    · refine ⟨i, by omega, ?_⟩
      rw [Function.update_noteq hik]
  · intro j hj
    by_cases hjk : j = k
    · subst hjk
      exact ⟨g.num_points - 1, by omega, by omega, by rw [Function.update_same]⟩
    · exact ⟨j, by omega, hjk, by rw [Function.update_noteq hjk]⟩

/-- Witness of C2: live contacts with indices 1, 2, 3 and removal of the middle one. -/
theorem C2_single_removal_witness :
    (1 < (tracker [tp 1 0 0, tp 2 5 5, tp 3 9 9]).num_points) ∧
    (((tracker [tp 1 0 0, tp 2 5 5, tp 3 9 9]).points 1).index = (tp 2 5 5).index) ∧
    (remove_touch_points (tracker [tp 1 0 0, tp 2 5 5, tp 3 9 9]) [tp 2 5 5]).num_points + 1 =
      (tracker [tp 1 0 0, tp 2 5 5, tp 3 9 9]).num_points :=
  ⟨by decide, by decide,
    (C2_single_removal (tracker [tp 1 0 0, tp 2 5 5, tp 3 9 9]) (tp 2 5 5) 1
      (by decide) (by decide) (by decide)).1⟩

/-- C3, evaluated at a full tracker (16 live contacts) and a batch of one point:
`add_touch_points` has no capacity test, so it raises `num_points` to 17 and stores the incoming
point in slot 16, one past the end of `points[16]`. -/
theorem C3_add_beyond_capacity :
    (tracker sixteen).num_points = 16 ∧
    (add_touch_points (tracker sixteen) [tp 99 1 1]).num_points = 17 ∧
    (add_touch_points (tracker sixteen) [tp 99 1 1]).points 16 = tp 99 1 1 := by
  decide

/-- C4: for a batch of `n` points with `num_points + n ≤ 16`, `add_touch_points` raises
`num_points` by `n`, keeps the first `num_points` slots, stores the batch in order in the next
`n` slots, sets `prev_single` to `points[0].pos` when one contact is live afterwards, sets
`prev_double` to the midpoint of `points[0]` and `points[1]` when two are live afterwards,
leaves the other reference point (or both, for any other count) as it was, and never changes
the camera. -/
theorem C4_add_appends_and_reseeds (g : Game F Q) (batch : List (TouchPoint F))
    (hcap : g.num_points + batch.length ≤ 16) :
    (add_touch_points g batch).num_points = g.num_points + batch.length ∧
    (∀ i, i < g.num_points → (add_touch_points g batch).points i = g.points i) ∧
    (∀ j q, batch[j]? = some q → (add_touch_points g batch).points (g.num_points + j) = q) ∧
    ((add_touch_points g batch).num_points = 1 →
      (add_touch_points g batch).prev_single = ((add_touch_points g batch).points 0).pos ∧
      (add_touch_points g batch).prev_double = g.prev_double) ∧
    ((add_touch_points g batch).num_points = 2 →
      (add_touch_points g batch).prev_double =
        vec2_mul_scalar (vec2_add ((add_touch_points g batch).points 0).pos
          ((add_touch_points g batch).points 1).pos) 0.5 ∧
      (add_touch_points g batch).prev_single = g.prev_single) ∧
    ((add_touch_points g batch).num_points ≠ 1 → (add_touch_points g batch).num_points ≠ 2 →
      (add_touch_points g batch).prev_single = g.prev_single ∧
      (add_touch_points g batch).prev_double = g.prev_double) ∧
    (add_touch_points g batch).camera = g.camera := by
  have _ := hcap
  unfold add_touch_points
  simp only [reseed_num_points, reseed_points, reseed_camera, reseed_prev_single,
    reseed_prev_double, add_loop_prev_single, add_loop_prev_double, add_loop_camera]
  refine ⟨add_loop_num_points batch g, fun i hi => add_loop_points_lt batch g i hi,
    fun j q hj => add_loop_points_new batch g j q hj, ?_, ?_, ?_, trivial⟩
  · intro h1
    have h2 : ¬ (List.foldl add_step g batch).num_points = 2 := by omega
    simp [h1, h2]
  · intro h2
    have h1 : ¬ (List.foldl add_step g batch).num_points = 1 := by omega
    simp [h1, h2]
  · intro h1 h2
    simp [h1, h2]

/-- Witness of C4: one contact added to an empty tracker. -/
theorem C4_add_appends_and_reseeds_witness :
    (tracker []).num_points + [tp 7 100 100].length ≤ 16 ∧
    (add_touch_points (tracker []) [tp 7 100 100]).num_points = 1 :=
  ⟨by decide, (C4_add_appends_and_reseeds (tracker []) [tp 7 100 100] (by decide)).1⟩

/-- C5: `update_touch_points` leaves `num_points`, `prev_single`, `prev_double` and the camera
as they were; a live contact whose index is the index of no incoming point is unchanged; a live
contact whose index occurs in the batch keeps its index and takes the position of the first
incoming point with that index; the slots at or beyond `num_points` are unchanged. -/
theorem C5_update_position_only (g : Game F Q) (batch : List (TouchPoint F)) :
    (update_touch_points g batch).num_points = g.num_points ∧
    (update_touch_points g batch).prev_single = g.prev_single ∧
    (update_touch_points g batch).prev_double = g.prev_double ∧
    (update_touch_points g batch).camera = g.camera ∧
    (∀ i, i < g.num_points → (∀ q ∈ batch, q.index ≠ (g.points i).index) →
      (update_touch_points g batch).points i = g.points i) ∧
    (∀ i, i < g.num_points → ∀ (j : Nat) (q : TouchPoint F), batch[j]? = some q →
      q.index = (g.points i).index →
      (∀ k, k < j → ∀ r : TouchPoint F, batch[k]? = some r → r.index ≠ (g.points i).index) →
      ((update_touch_points g batch).points i).index = (g.points i).index ∧
      ((update_touch_points g batch).points i).pos = q.pos) ∧
    (∀ i, g.num_points ≤ i → (update_touch_points g batch).points i = g.points i) := by
  obtain ⟨h1, h2, h3, h4, h5⟩ := update_loop_spec batch g g.num_points
  unfold update_touch_points
  refine ⟨h1, h3, h4, h2, ?_, ?_, ?_⟩
  · intro i hi hno
    have hnone : first_match (g.points i).index batch = none :=
      (first_match_none_iff _ _).2 (fun q hq e => hno q hq e.symm)
    rw [h5 i, if_pos hi, hnone]
    rfl
  · intro i hi j q hj hq hfirst
    rw [h5 i, if_pos hi, first_match_first (g.points i).index batch j q hj hq hfirst]
    exact ⟨hq, rfl⟩
  · intro i hi
    rw [h5 i, if_neg (by omega)]

/-- C6 as stated fails on `float`: two contacts at `(3e38, 0)` added to an empty tracker leave
`num_points = 2`; the sum of the two finite `x` coordinates overflows, so the reseed stores an
infinite `prev_double.x`, the next `_control_camera` computes `delta.x = inf - inf = NaN`, and
the camera position becomes NaN. -/
theorem C6_overflowing_midpoint_moves_camera :
    big.isFinite ∧
    (add_touch_points (floatGame []) overflowPair).num_points = 2 ∧
    (add_touch_points (floatGame []) overflowPair).prev_double = ⟨XFloat.pinf, XFloat.fin 0⟩ ∧
    pan_delta (add_touch_points (floatGame []) overflowPair) = ⟨XFloat.nan, XFloat.fin 0⟩ ∧
    (add_touch_points (floatGame []) overflowPair).camera.position =
      ⟨XFloat.fin 4, XFloat.fin 2, XFloat.fin 7⟩ ∧
    (_control_camera flatQuat (add_touch_points (floatGame []) overflowPair)
      (XFloat.fin 1)).camera.position = ⟨XFloat.nan, XFloat.nan, XFloat.nan⟩ := by
  refine ⟨?_, ?_, ?_, ?_, ?_, ?_⟩ <;> decide!

/-- C6, amended: let `g'` be the state left by `add_touch_points` or by `remove_touch_points`,
over `float` values with infinities and NaN.  If `num_points` is 1 there, `delta_time` is finite
and the position of `points[0]` is finite, the look delta of the next `_control_camera` is
`(0,0)`, the camera position is unchanged and the orientation is composed with axis rotations of
angle 0 only (so the camera is unchanged when a zero-angle axis rotation is a two-sided identity
of `quat_multiply`).  If `num_points` is 2, the `float` sum of the two positions is finite, and
the camera position and the z and x axes of its orientation are finite, the pan delta is `(0,0)`
and the camera is unchanged.  If `num_points` is 0, `_control_camera` changes nothing at all. -/
theorem C6_transition_frame_zero_delta {Q : Type} (M : QuatMath XFloat Q) (g g' : Game XFloat Q)
    (batch : List (TouchPoint XFloat)) (delta_time : XFloat)
    (hg' : g' = add_touch_points g batch ∨ g' = remove_touch_points g batch) :
    (g'.num_points = 1 → delta_time.isFinite → finite2 (g'.points 0).pos →
      look_delta g' = ⟨0, 0⟩ ∧
      (_control_camera M g' delta_time).camera.position = g'.camera.position ∧
      (_control_camera M g' delta_time).camera.orientation =
        M.quat_multiply (M.quat_from_axis_anglef 1 0 0 0)
          (M.quat_multiply g'.camera.orientation (M.quat_from_axis_anglef 0 1 0 0)) ∧
      ((∀ x y z q, M.quat_multiply (M.quat_from_axis_anglef x y z 0) q = q ∧
          M.quat_multiply q (M.quat_from_axis_anglef x y z 0) = q) →
        (_control_camera M g' delta_time).camera = g'.camera)) ∧
    (g'.num_points = 2 → finite2 (vec2_add (g'.points 0).pos (g'.points 1).pos) →
      finite3 g'.camera.position →
      finite3 (M.quat_get_z_axis g'.camera.orientation) →
      finite3 (M.quat_get_x_axis g'.camera.orientation) →
      pan_delta g' = ⟨0, 0⟩ ∧
      (_control_camera M g' delta_time).camera = g'.camera) ∧
    (g'.num_points = 0 → _control_camera M g' delta_time = g') := by
  have hre : ∃ g0 : Game XFloat Q, g' = reseed g0 := by
    rcases hg' with h | h
    · exact ⟨_, h⟩
    · exact ⟨_, h⟩
  obtain ⟨g0, rfl⟩ := hre
  refine ⟨?_, ?_, ?_⟩
  · intro h1 hdt hf
    have hs : (reseed g0).prev_single = ((reseed g0).points 0).pos := by
      rw [reseed_num_points] at h1
      rw [reseed_prev_single, if_pos h1, reseed_points]
    have hd := look_zero (reseed g0) hs hf
    obtain ⟨k1, k2, k3⟩ := look_tick_zero M (reseed g0) delta_time h1 hd hdt
    refine ⟨hd, k1, k3, ?_⟩
    intro hid
    have e : (_control_camera M (reseed g0) delta_time).camera.orientation =
        (reseed g0).camera.orientation := by
      rw [k3, (hid 1 0 0 _).1, (hid 0 1 0 _).2]
    cases hc : (_control_camera M (reseed g0) delta_time).camera with
    | mk p o sc =>
      cases hc0 : (reseed g0).camera with
      | mk p0 o0 sc0 =>
        rw [hc, hc0] at k1 k2 e
        simp only at k1 k2 e
        rw [k1, k2, e]
  · intro h2 hf hp hz hx
    have hs : (reseed g0).prev_double = pan_avg (reseed g0) := by
      rw [reseed_num_points] at h2
      rw [reseed_prev_double, if_pos h2]
      simp only [pan_avg, reseed_points]
    have hd := pan_zero (reseed g0) hs hf
    exact ⟨hd, pan_tick_zero M (reseed g0) delta_time h2 hd hp hz hx⟩
  · intro h0
    exact control_idle M _ delta_time (by omega) (by omega)

/-- Witness of C6 (amended): a first contact lands at (100,100) on an empty tracker and the
next tick with `delta_time = 1` sees a zero look delta; two contacts land at (0,0) and (10,0)
and the next tick sees a zero pan delta and keeps the camera. -/
theorem C6_transition_frame_zero_delta_witness :
    ((add_touch_points (floatGame []) [⟨7, ⟨XFloat.fin 100, XFloat.fin 100⟩⟩]).num_points = 1 ∧
      (XFloat.fin 1).isFinite ∧
      look_delta (add_touch_points (floatGame []) [⟨7, ⟨XFloat.fin 100, XFloat.fin 100⟩⟩]) =
        ⟨0, 0⟩) ∧
    ((add_touch_points (floatGame []) finitePair).num_points = 2 ∧
      pan_delta (add_touch_points (floatGame []) finitePair) = ⟨0, 0⟩ ∧
      (_control_camera flatQuat (add_touch_points (floatGame []) finitePair)
        (XFloat.fin 1)).camera = (add_touch_points (floatGame []) finitePair).camera) :=
  ⟨⟨by decide, by decide!,
    ((C6_transition_frame_zero_delta flatQuat (floatGame []) _
      [⟨7, ⟨XFloat.fin 100, XFloat.fin 100⟩⟩] (XFloat.fin 1) (Or.inl rfl)).1 (by decide)
      (by decide!) (by decide!)).1⟩,
   ⟨by decide,
    (C6_transition_frame_zero_delta flatQuat (floatGame []) _ finitePair (XFloat.fin 1)
      (Or.inl rfl)).2.1 (by decide) (by decide!) (by decide!) (by decide!) (by decide!)⟩⟩

/-- C7: with exactly one live contact and `delta = points[0].pos - prev_single`,
`_control_camera` sets the orientation to
`R_x(delta_time*delta.y*0.2) * (orientation * R_y(delta_time*delta.x*0.2))`, leaves position,
scale, `prev_double` and the live contacts as they were and sets `prev_single` to
`points[0].pos`.  In the scenario (from an empty tracker) add (100,100), tick, update to
(110,100), tick with `delta_time = 1`, the second tick composes the orientation with a yaw of
angle 2 and a pitch of angle 0. -/
theorem C7_look_mode (M : QuatMath F Q) (g : Game F Q) (delta_time : F) :
    (g.num_points = 1 →
      (_control_camera M g delta_time).camera.orientation =
        M.quat_multiply
          (M.quat_from_axis_anglef 1 0 0
            (delta_time * ((g.points 0).pos.y - g.prev_single.y) * 0.2))
          (M.quat_multiply g.camera.orientation
            (M.quat_from_axis_anglef 0 1 0
              (delta_time * ((g.points 0).pos.x - g.prev_single.x) * 0.2))) ∧
      (_control_camera M g delta_time).camera.position = g.camera.position ∧
      (_control_camera M g delta_time).camera.scale = g.camera.scale ∧
      (_control_camera M g delta_time).prev_double = g.prev_double ∧
      (_control_camera M g delta_time).prev_single = (g.points 0).pos ∧
      (_control_camera M g delta_time).points = g.points ∧
      (_control_camera M g delta_time).num_points = g.num_points) ∧
    (g.num_points = 0 → ∀ (idx : Int) (dt1 : F),
      (_control_camera M
        (update_touch_points
          (_control_camera M (add_touch_points g [⟨idx, ⟨100, 100⟩⟩]) dt1)
          [⟨idx, ⟨110, 100⟩⟩]) 1).camera.orientation =
        M.quat_multiply (M.quat_from_axis_anglef 1 0 0 0)
          (M.quat_multiply
            (update_touch_points
              (_control_camera M (add_touch_points g [⟨idx, ⟨100, 100⟩⟩]) dt1)
              [⟨idx, ⟨110, 100⟩⟩]).camera.orientation
            (M.quat_from_axis_anglef 0 1 0 2))) := by
  constructor
  · intro h
    rw [control_look M g delta_time h]
    exact ⟨rfl, rfl, rfl, rfl, rfl, rfl, rfl⟩
  · intro h idx dt1
    obtain ⟨a1, a2, a3, _⟩ := add_one_to_empty g (⟨idx, ⟨100, 100⟩⟩ : TouchPoint F) h
    have c1 := control_look M _ dt1 a1
    have hn2 : (_control_camera M (add_touch_points g [⟨idx, ⟨100, 100⟩⟩]) dt1).num_points = 1 := by
      rw [c1]; exact a1
    have hp2 : (_control_camera M (add_touch_points g [⟨idx, ⟨100, 100⟩⟩]) dt1).points 0 =
        ⟨idx, ⟨100, 100⟩⟩ := by
      rw [c1]; exact a2
    have hs2 : (_control_camera M (add_touch_points g [⟨idx, ⟨100, 100⟩⟩]) dt1).prev_single =
        ⟨100, 100⟩ := by
      rw [c1]; simp [a2]
    obtain ⟨u1, u2, u3, _⟩ := update_one_live _ (⟨idx, ⟨110, 100⟩⟩ : TouchPoint F) hn2
      (by rw [hp2])
    rw [control_look M _ 1 u1]
    have hd : look_delta (update_touch_points
        (_control_camera M (add_touch_points g [⟨idx, ⟨100, 100⟩⟩]) dt1)
        [⟨idx, ⟨110, 100⟩⟩]) = ⟨10, 0⟩ := by
      simp only [look_delta, u2, u3, hs2, vec2_sub]
      norm_num
    rw [hd]
    norm_num

/-- Witness of C7: the scenario run in the sample quaternion algebra; the second tick multiplies
the identity orientation by the sample yaw of angle 2. -/
theorem C7_look_mode_witness :
    (sampleGame [] ⟨0, 0⟩ ⟨0, 0⟩).num_points = 0 ∧
    (_control_camera sampleQuat
      (update_touch_points
        (_control_camera sampleQuat
          (add_touch_points (sampleGame [] ⟨0, 0⟩ ⟨0, 0⟩) [⟨7, ⟨100, 100⟩⟩]) 1)
        [⟨7, ⟨110, 100⟩⟩]) 1).camera.orientation =
      sampleQuat.quat_multiply (sampleQuat.quat_from_axis_anglef 1 0 0 0)
        (sampleQuat.quat_multiply
          (update_touch_points
            (_control_camera sampleQuat
              (add_touch_points (sampleGame [] ⟨0, 0⟩ ⟨0, 0⟩) [⟨7, ⟨100, 100⟩⟩]) 1)
            [⟨7, ⟨110, 100⟩⟩]).camera.orientation
          (sampleQuat.quat_from_axis_anglef 0 1 0 2)) :=
  ⟨by decide, (C7_look_mode sampleQuat (sampleGame [] ⟨0, 0⟩ ⟨0, 0⟩) 1).2 (by decide) 7 1⟩

/-- C8: with exactly two live contacts, `mid = (points[0].pos + points[1].pos) * 0.5` and
`delta = mid - prev_double`, `_control_camera` sets the position to
`position + z_axis(orientation) * (-delta.y*0.1) + x_axis(orientation) * (delta.x*0.1)`, leaves
orientation, scale, `prev_single` and the live contacts as they were, sets `prev_double` to
`mid`, and gives the same result for every `delta_time`.  In the scenario (from an empty
tracker) add (0,0) and (10,0), update to (0,10) and (10,10), tick: the delta is (0,10) and the
position moves by `-1` times the forward axis and by `0` times the right axis. -/
theorem C8_pan_mode (M : QuatMath F Q) (g : Game F Q) (delta_time : F) :
    (g.num_points = 2 →
      (_control_camera M g delta_time).camera.position =
        vec3_add
          (vec3_add g.camera.position
            (vec3_mul_scalar (M.quat_get_z_axis g.camera.orientation)
              (-(((g.points 0).pos.y + (g.points 1).pos.y) * 0.5 - g.prev_double.y) * 0.1)))
          (vec3_mul_scalar (M.quat_get_x_axis g.camera.orientation)
            ((((g.points 0).pos.x + (g.points 1).pos.x) * 0.5 - g.prev_double.x) * 0.1)) ∧
      (_control_camera M g delta_time).camera.orientation = g.camera.orientation ∧
      (_control_camera M g delta_time).camera.scale = g.camera.scale ∧
      (_control_camera M g delta_time).prev_single = g.prev_single ∧
      (_control_camera M g delta_time).prev_double =
        ⟨((g.points 0).pos.x + (g.points 1).pos.x) * 0.5,
         ((g.points 0).pos.y + (g.points 1).pos.y) * 0.5⟩ ∧
      (_control_camera M g delta_time).points = g.points ∧
      (_control_camera M g delta_time).num_points = g.num_points ∧
      (∀ dt2 : F, _control_camera M g dt2 = _control_camera M g delta_time)) ∧
    (g.num_points = 0 → ∀ (i0 i1 : Int), i0 ≠ i1 →
      pan_delta (update_touch_points (add_touch_points g [⟨i0, ⟨0, 0⟩⟩, ⟨i1, ⟨10, 0⟩⟩])
        [⟨i0, ⟨0, 10⟩⟩, ⟨i1, ⟨10, 10⟩⟩]) = ⟨0, 10⟩ ∧
      (_control_camera M
        (update_touch_points (add_touch_points g [⟨i0, ⟨0, 0⟩⟩, ⟨i1, ⟨10, 0⟩⟩])
          [⟨i0, ⟨0, 10⟩⟩, ⟨i1, ⟨10, 10⟩⟩]) delta_time).camera.position =
        vec3_add
          (vec3_add g.camera.position
            (vec3_mul_scalar (M.quat_get_z_axis g.camera.orientation) (-1)))
          (vec3_mul_scalar (M.quat_get_x_axis g.camera.orientation) 0)) := by
  constructor
  · intro h
    have hall : ∀ dt2 : F, _control_camera M g dt2 = _control_camera M g delta_time := by
      intro dt2
      rw [control_pan M g delta_time h, control_pan M g dt2 h]
    rw [control_pan M g delta_time h] at hall ⊢
    exact ⟨rfl, rfl, rfl, rfl, rfl, rfl, rfl, hall⟩
  · intro h i0 i1 hne
    obtain ⟨a1, a2, a3, a4, a5⟩ :=
      add_two_to_empty g (⟨i0, ⟨0, 0⟩⟩ : TouchPoint F) (⟨i1, ⟨10, 0⟩⟩ : TouchPoint F) h
    obtain ⟨u1, u2, u3, u4, u5⟩ :=
      update_two_live (add_touch_points g [⟨i0, ⟨0, 0⟩⟩, ⟨i1, ⟨10, 0⟩⟩])
        (⟨i0, ⟨0, 10⟩⟩ : TouchPoint F) (⟨i1, ⟨10, 10⟩⟩ : TouchPoint F) a1
        (by rw [a2]) (by rw [a3]) hne
    have hd : pan_delta (update_touch_points (add_touch_points g [⟨i0, ⟨0, 0⟩⟩, ⟨i1, ⟨10, 0⟩⟩])
        [⟨i0, ⟨0, 10⟩⟩, ⟨i1, ⟨10, 10⟩⟩]) = ⟨0, 10⟩ := by
      simp only [pan_delta, pan_avg, u2, u3, u4, a4, vec2_sub, vec2_add, vec2_mul_scalar]
      norm_num
    refine ⟨hd, ?_⟩
    rw [control_pan M _ delta_time u1, hd, u5, a5]
    norm_num

/-- Witness of C8: the pan scenario from an empty sample game, contacts 1 and 2. -/
theorem C8_pan_mode_witness :
    (sampleGame [] ⟨0, 0⟩ ⟨0, 0⟩).num_points = 0 ∧
    pan_delta (update_touch_points
      (add_touch_points (sampleGame [] ⟨0, 0⟩ ⟨0, 0⟩) [⟨1, ⟨0, 0⟩⟩, ⟨2, ⟨10, 0⟩⟩])
      [⟨1, ⟨0, 10⟩⟩, ⟨2, ⟨10, 10⟩⟩]) = ⟨0, 10⟩ :=
  ⟨by decide,
   ((C8_pan_mode sampleQuat (sampleGame [] ⟨0, 0⟩ ⟨0, 0⟩) 1).2 (by decide) 1 2 (by decide)).1⟩

/-- C9: with no live contact, or with three or more, `_control_camera` returns the game as it
was: camera transform, `prev_single`, `prev_double` and the live touch set are unchanged. -/
theorem C9_no_gesture_no_change (M : QuatMath F Q) (g : Game F Q) (delta_time : F)
    (h : g.num_points = 0 ∨ 3 ≤ g.num_points) : _control_camera M g delta_time = g :=
  control_idle M g delta_time (by omega) (by omega)

/-- Witness of C9: three live contacts and a pending difference to both reference points. -/
theorem C9_no_gesture_no_change_witness :
    3 ≤ (sampleGame [tp 1 0 0, tp 2 5 5, tp 3 9 9] ⟨3, 4⟩ ⟨5, 6⟩).num_points ∧
    _control_camera sampleQuat (sampleGame [tp 1 0 0, tp 2 5 5, tp 3 9 9] ⟨3, 4⟩ ⟨5, 6⟩) 1 =
      sampleGame [tp 1 0 0, tp 2 5 5, tp 3 9 9] ⟨3, 4⟩ ⟨5, 6⟩ :=
  ⟨by decide,
   C9_no_gesture_no_change sampleQuat (sampleGame [tp 1 0 0, tp 2 5 5, tp 3 9 9] ⟨3, 4⟩ ⟨5, 6⟩) 1
     (Or.inr (by decide))⟩

/-- C10 as stated fails: in `pendingLook` (one live contact, index 7, moved to (110,100) while
`prev_single` is (100,100)) the batch `[9]` matches no live index, yet `remove_touch_points`
sets `prev_single` to (110,100): the pending look delta (10,0) becomes (0,0). -/
theorem C10_unmatched_remove_changes_prev_single :
    (∀ i, i < pendingLook.num_points → ∀ q ∈ [tp 9 0 0], (pendingLook.points i).index ≠ q.index) ∧
    pendingLook.prev_single = ⟨100, 100⟩ ∧
    look_delta pendingLook = ⟨10, 0⟩ ∧
    (remove_touch_points pendingLook [tp 9 0 0]).prev_single = ⟨110, 100⟩ ∧
    look_delta (remove_touch_points pendingLook [tp 9 0 0]) = ⟨0, 0⟩ ∧
    (remove_touch_points pendingLook [tp 9 0 0]).prev_single ≠ pendingLook.prev_single := by
  have p0 : (pendingLook.points 0).pos = ⟨110, 100⟩ := by decide
  have s0 : pendingLook.prev_single = ⟨100, 100⟩ := by decide
  have p1 : ((remove_touch_points pendingLook [tp 9 0 0]).points 0).pos = ⟨110, 100⟩ := by decide
  have s1 : (remove_touch_points pendingLook [tp 9 0 0]).prev_single = ⟨110, 100⟩ := by decide
  refine ⟨by decide, s0, ?_, s1, ?_, by decide⟩
  · simp only [look_delta, p0, s0, vec2_sub]
    norm_num
  · simp only [look_delta, p1, s1, vec2_sub]
    norm_num

/-- C10, amended: when no incoming index is the index of a live contact,
`remove_touch_points` leaves the contacts, `num_points` and the camera unchanged; it sets
`prev_single` to `points[0].pos` when `num_points` is 1 and `prev_double` to the midpoint of
`points[0]` and `points[1]` when `num_points` is 2, and leaves the reference points unchanged
otherwise (so for any other count the whole state is unchanged). -/
theorem C10_unmatched_remove (g : Game F Q) (batch : List (TouchPoint F))
    (hno : ∀ i, i < g.num_points → ∀ q ∈ batch, (g.points i).index ≠ q.index) :
    (remove_touch_points g batch).points = g.points ∧
    (remove_touch_points g batch).num_points = g.num_points ∧
    (remove_touch_points g batch).camera = g.camera ∧
    (remove_touch_points g batch).prev_single =
      (if g.num_points = 1 then (g.points 0).pos else g.prev_single) ∧
    (remove_touch_points g batch).prev_double =
      (if g.num_points = 2 then
        vec2_mul_scalar (vec2_add (g.points 0).pos (g.points 1).pos) 0.5
       else g.prev_double) ∧
    (g.num_points ≠ 1 → g.num_points ≠ 2 → remove_touch_points g batch = g) := by
  have hloop : (List.range g.num_points).foldl (remove_step batch) g = g :=
    remove_loop_no_match batch g g.num_points
      (fun i hi => (first_match_none_iff _ _).2 (hno i hi))
  have hre : remove_touch_points g batch = reseed g := by
    simp only [remove_touch_points, hloop]
  rw [hre]
  refine ⟨reseed_points g, reseed_num_points g, reseed_camera g, reseed_prev_single g,
    reseed_prev_double g, ?_⟩
  intro h1 h2
  simp [reseed, h1, h2]

/-- Witness of C10 (amended): the unmatched batch `[9]` on `pendingLook`. -/
theorem C10_unmatched_remove_witness :
    (∀ i, i < pendingLook.num_points → ∀ q ∈ [tp 9 0 0], (pendingLook.points i).index ≠ q.index) ∧
    (remove_touch_points pendingLook [tp 9 0 0]).num_points = pendingLook.num_points :=
  ⟨by decide, (C10_unmatched_remove pendingLook [tp 9 0 0] (by decide)).2.1⟩

end Claims

section OrchestratorClaims
variable {F : Type} [LinearOrderedField F] {Q Mesh Material : Type}

/-- C11: one call of `update_game` advances the accumulated angle `degrees` by
`delta_time*(k2Pi/8)` and then submits exactly 8 point lights, light `i` (in the order
`i = 0..7`) being built from `angle_i = i*(k2Pi/8) + degrees`; consecutive angles differ by
`k2Pi/8`, `angle_0 - angle_7` is `k2Pi/8` up to an integer multiple of `k2Pi`, after the ticks
`ds` from `degrees = 0` the accumulated angle is `(sum of ds)*(k2Pi/8)`, and a further tick with
a non-negative delta-time does not lower it (for `0 ≤ k2Pi`). -/
theorem C11_orbit_angles (M : QuatMath F Q) (k2Pi : F) (tz : Transform F Q) (degrees : F)
    (game : FullGame F Q Mesh Material) (delta_time : F) :
    (update_game M k2Pi tz degrees game delta_time).1 = degrees + delta_time * (k2Pi / 8) ∧
    submitted_lights (update_game M k2Pi tz degrees game delta_time).2.2 =
      (List.range 8).map (fun i =>
        orbit_light M (light_angle k2Pi (update_game M k2Pi tz degrees game delta_time).1 i)) ∧
    (∀ (D : F) (i : Nat), light_angle k2Pi D i = (i : F) * (k2Pi / 8) + D) ∧
    (∀ (D : F) (i : Nat), i < 7 →
      light_angle k2Pi D (i + 1) - light_angle k2Pi D i = k2Pi / 8) ∧
    (∀ D : F, ∃ k : ℤ, light_angle k2Pi D 0 - light_angle k2Pi D 7 = k2Pi / 8 + (k : F) * k2Pi) ∧
    (∀ ds : List F, (run_ticks M k2Pi tz 0 game ds).1 = ds.sum * (k2Pi / 8)) ∧
    (0 ≤ k2Pi → ∀ (ds : List F) (d : F), 0 ≤ d →
      (run_ticks M k2Pi tz 0 game ds).1 ≤ (run_ticks M k2Pi tz 0 game (ds ++ [d])).1) := by
  refine ⟨rfl, update_game_lights M k2Pi tz degrees game delta_time, fun _ _ => rfl, ?_, ?_, ?_,
    ?_⟩
  · intro D i _
    simp only [light_angle]
    push_cast
    ring
  · intro D
    refine ⟨-1, ?_⟩
    simp only [light_angle]
    push_cast
    ring
  · intro ds
    rw [run_ticks_degrees]
    ring
  · intro hk ds d hd
    rw [run_ticks_degrees, run_ticks_degrees, List.sum_append]
    have : 0 ≤ d * (k2Pi / 8) := mul_nonneg hd (div_nonneg hk (by norm_num))
    simp only [List.sum_cons, List.sum_nil, add_zero]
    linarith

/-- Witness of C11: two ticks of 1/2 and 3/2 with `k2Pi = 44/7`, then a third tick of 1. -/
theorem C11_orbit_angles_witness :
    (run_ticks sampleQuat (44 / 7) sampleZero 0 (sampleFull 2) [1 / 2, 3 / 2]).1 ≤
      (run_ticks sampleQuat (44 / 7) sampleZero 0 (sampleFull 2) ([1 / 2, 3 / 2] ++ [1])).1 :=
  (C11_orbit_angles sampleQuat (44 / 7) sampleZero 0 (sampleFull 2) 1).2.2.2.2.2.2
    (by norm_num) [1 / 2, 3 / 2] 1 (by norm_num)

/-- C13, evaluated: `destroy_game` does not return, whatever the bound on the depth of its
nested activations, because its last statement calls `destroy_game(game)` again; for a game with
one terrain mesh the first two activations already destroy the mesh twice, free the mesh array
twice and destroy the timer and the graphics subsystem twice. -/
theorem C13_destroy_game_never_returns (fuel : Nat) (game : FullGame F Q Mesh Material) :
    destroy_game fuel game = none ∧
    destroy_game_calls 2 (sampleFull 1) =
      [DestroyCall.destroy_mesh 0, DestroyCall.free_terrain_meshes, DestroyCall.destroy_timer,
       DestroyCall.destroy_graphics,
       DestroyCall.destroy_mesh 0, DestroyCall.free_terrain_meshes, DestroyCall.destroy_timer,
       DestroyCall.destroy_graphics] :=
  ⟨destroy_game_none fuel game, by decide⟩

/-- C14: `cycle_renderers` takes Forward to Light-Pre-Pass, Light-Pre-Pass to Deferred and
Deferred to Forward, which is the successor modulo `MAX_RENDERERS = 3` in the enumeration;
three calls give back the state they started from, one or two calls never give back the
renderer type, and the viewport size and the accumulated scene are unchanged. -/
theorem C14_cycle_renderers_three_cycle {Scene : Type} (G : Graphics Scene) :
    (G.renderer_type = RendererType.kForward →
      (cycle_renderers G).renderer_type = RendererType.kLightPrePass) ∧
    (G.renderer_type = RendererType.kLightPrePass →
      (cycle_renderers G).renderer_type = RendererType.kDeferred) ∧
    (G.renderer_type = RendererType.kDeferred →
      (cycle_renderers G).renderer_type = RendererType.kForward) ∧
    (cycle_renderers G).renderer_type.toNat = (G.renderer_type.toNat + 1) % MAX_RENDERERS ∧
    MAX_RENDERERS = 3 ∧
    cycle_renderers (cycle_renderers (cycle_renderers G)) = G ∧
    (cycle_renderers G).renderer_type ≠ G.renderer_type ∧
    (cycle_renderers (cycle_renderers G)).renderer_type ≠ G.renderer_type ∧
    (cycle_renderers G).width = G.width ∧ (cycle_renderers G).height = G.height ∧
    (cycle_renderers G).scene = G.scene := by
  obtain ⟨w, h, r, sc⟩ := G
  cases r <;> simp [cycle_renderers, RendererType.toNat, MAX_RENDERERS]

/-- Witness of C14: three calls from Deferred on a 640x480 viewport. -/
theorem C14_cycle_renderers_three_cycle_witness :
    cycle_renderers (cycle_renderers (cycle_renderers
      (⟨640, 480, RendererType.kDeferred, [1, 2, 3]⟩ : Graphics (List Nat)))) =
      ⟨640, 480, RendererType.kDeferred, [1, 2, 3]⟩ :=
  (C14_cycle_renderers_three_cycle
    (⟨640, 480, RendererType.kDeferred, [1, 2, 3]⟩ : Graphics (List Nat))).2.2.2.2.2.1

/-- C16: with two live contacts, `_control_camera` on the game with `points[0]` and `points[1]`
exchanged gives the same camera and the same `prev_double` as on the game itself; the closing
block of `add_touch_points` and `remove_touch_points` gives the same `prev_double` for either
order of the two contacts, and so does adding the two contacts to an empty tracker in either
order. -/
theorem C16_order_independence (M : QuatMath F Q) (g : Game F Q) (delta_time : F) :
    (g.num_points = 2 →
      (_control_camera M (swap_contacts g) delta_time).camera =
        (_control_camera M g delta_time).camera ∧
      (_control_camera M (swap_contacts g) delta_time).prev_double =
        (_control_camera M g delta_time).prev_double) ∧
    (reseed (swap_contacts g)).prev_double = (reseed g).prev_double ∧
    (g.num_points = 0 → ∀ p q : TouchPoint F,
      (add_touch_points g [p, q]).prev_double = (add_touch_points g [q, p]).prev_double) := by
  refine ⟨?_, ?_, ?_⟩
  · intro h
    have hs : (swap_contacts g).num_points = 2 := h
    have hd : pan_delta (swap_contacts g) = pan_delta g := by
      simp only [pan_delta, swap_contacts_pan_avg]
      rfl
    rw [control_pan M _ delta_time hs, control_pan M g delta_time h, hd,
      swap_contacts_pan_avg]
    exact ⟨rfl, rfl⟩
  · have hp := swap_contacts_pan_avg g
    simp only [pan_avg] at hp
    rw [reseed_prev_double, reseed_prev_double, hp]
    rfl
  · intro h p q
    rw [(add_two_to_empty g p q h).2.2.2.1, (add_two_to_empty g q p h).2.2.2.1]
    simp [vec2_add, add_comm]

/-- Witness of C16: the contacts (0,0) and (10,4) in either order, reference midpoint (1,1). -/
theorem C16_order_independence_witness :
    (sampleGame [tp 1 0 0, tp 2 10 4] ⟨0, 0⟩ ⟨1, 1⟩).num_points = 2 ∧
    (_control_camera sampleQuat
      (swap_contacts (sampleGame [tp 1 0 0, tp 2 10 4] ⟨0, 0⟩ ⟨1, 1⟩)) 1).camera =
      (_control_camera sampleQuat (sampleGame [tp 1 0 0, tp 2 10 4] ⟨0, 0⟩ ⟨1, 1⟩) 1).camera :=
  ⟨by decide,
   ((C16_order_independence sampleQuat (sampleGame [tp 1 0 0, tp 2 10 4] ⟨0, 0⟩ ⟨1, 1⟩) 1).1
      (by decide)).1⟩

/-- C17: for a game with `num_terrain_meshes = num_terrain_materials = n`, one call of
`update_game` submits exactly `n` draw commands, the `i`-th being
`(terrain_meshes[i], terrain_materials[i], transform_zero with scale 0.01)` for `i = 0..n-1` in
increasing order, so every index used lies below both counts; the calls that follow the 8
lights are `set_view_transform` with the camera left by `_control_camera` in this tick, which is
the camera of the game afterwards, and `set_sun_light` with direction `(0,-1,0)` and colour
`(1,1,1)`. -/
theorem C17_terrain_submission (M : QuatMath F Q) (k2Pi : F) (tz : Transform F Q) (degrees : F)
    (game : FullGame F Q Mesh Material) (delta_time : F) (n : Nat)
    (hmesh : game.num_terrain_meshes = n) (hmat : game.num_terrain_materials = n) :
    (submitted_draws (update_game M k2Pi tz degrees game delta_time).2.2).length = n ∧
    (∀ i, i < n →
      (submitted_draws (update_game M k2Pi tz degrees game delta_time).2.2)[i]? =
        some (game.terrain_meshes i, game.terrain_materials i,
          ({ tz with scale := 0.01 } : Transform F Q)) ∧
      i < game.num_terrain_meshes ∧ i < game.num_terrain_materials) ∧
    (update_game M k2Pi tz degrees game delta_time).2.2 =
      (List.range n).map (fun i =>
        GfxCall.add_render_command (game.terrain_meshes i) (game.terrain_materials i)
          { tz with scale := 0.01 }) ++
      (List.range 8).map (fun i =>
        GfxCall.add_point_light
          (orbit_light M (light_angle k2Pi (degrees + delta_time * (k2Pi / 8)) i))) ++
      [GfxCall.set_view_transform (_control_camera M game.toGame delta_time).camera,
       GfxCall.set_sun_light ⟨0, -1, 0⟩ ⟨1, 1, 1⟩] ∧
    (update_game M k2Pi tz degrees game delta_time).2.1.camera =
      (_control_camera M game.toGame delta_time).camera := by
  refine ⟨?_, ?_, ?_, ?_⟩
  · rw [update_game_draws, hmesh]
    simp
  · intro i hi
    refine ⟨?_, by omega, by omega⟩
    rw [update_game_draws, hmesh]
    simp [hi]
  · rw [update_game_calls, hmesh]
    rfl
  · rw [update_game_toGame]

/-- Witness of C17: a game with three terrain meshes and three materials. -/
theorem C17_terrain_submission_witness :
    (sampleFull 3).num_terrain_meshes = 3 ∧ (sampleFull 3).num_terrain_materials = 3 ∧
    (submitted_draws (update_game sampleQuat (44 / 7) sampleZero 0 (sampleFull 3) 1).2.2).length
      = 3 :=
  ⟨rfl, rfl,
   (C17_terrain_submission sampleQuat (44 / 7) sampleZero 0 (sampleFull 3) 1 3 rfl rfl).1⟩

/-- C18: the lights that `update_game` submits depend on `delta_time` and on the accumulated
angle `degrees` only, not on the game: two games ticked from the same `degrees` with the same
`delta_time` submit the same lights.  `degrees` is one variable for all games: after any
interleaving of ticks of two games `a` and `b` from `degrees = 0` it is the sum of the
delta-times of all ticks of both games times `k2Pi/8`, and the lights of the next tick of `a`
are built from that sum.  So the lights are not a function of the game and `delta_time`: in
the sample algebra with `k2Pi = 8` the same game with the same `delta_time = 1` submits other
lights after one tick of another game than before it. -/
theorem C18_orbit_phase_is_shared (M : QuatMath F Q) (k2Pi : F) (tz : Transform F Q)
    (a b : FullGame F Q Mesh Material) (delta_time : F) :
    (∀ degrees : F,
      submitted_lights (update_game M k2Pi tz degrees a delta_time).2.2 =
        submitted_lights (update_game M k2Pi tz degrees b delta_time).2.2) ∧
    (∀ schedule : List (Bool × F),
      (run_two M k2Pi tz 0 a b schedule).1 = (schedule.map Prod.snd).sum * (k2Pi / 8) ∧
      submitted_lights
        (update_game M k2Pi tz (run_two M k2Pi tz 0 a b schedule).1
          (run_two M k2Pi tz 0 a b schedule).2.1 delta_time).2.2 =
        (List.range 8).map (fun i =>
          orbit_light M
            (light_angle k2Pi (((schedule.map Prod.snd).sum + delta_time) * (k2Pi / 8)) i))) ∧
    (run_two sampleQuat 8 sampleZero 0 (sampleFull 0) (sampleFull 1) [(false, 1)]).2.1 =
      sampleFull 0 ∧
    submitted_lights (update_game sampleQuat 8 sampleZero 0 (sampleFull 0) 1).2.2 ≠
      submitted_lights
        (update_game sampleQuat 8 sampleZero
          (run_two sampleQuat 8 sampleZero 0 (sampleFull 0) (sampleFull 1) [(false, 1)]).1
          (run_two sampleQuat 8 sampleZero 0 (sampleFull 0) (sampleFull 1) [(false, 1)]).2.1
          1).2.2 := by
  refine ⟨?_, ?_, rfl, ?_⟩
  · intro degrees
    rw [update_game_lights, update_game_lights]
  · intro schedule
    rw [update_game_lights, run_two_degrees]
    refine ⟨by ring, ?_⟩
    have e : (0 : F) + (schedule.map Prod.snd).sum * (k2Pi / 8) + delta_time * (k2Pi / 8) =
        ((schedule.map Prod.snd).sum + delta_time) * (k2Pi / 8) := by ring
    rw [e]
  · intro h
    rw [update_game_lights, update_game_lights, run_two_degrees] at h
    have h0 := congrArg (fun l => (l.map fun x => x.position.x)[0]?) h
    simp only [List.map_map, List.getElem?_map, List.getElem?_range, Function.comp,
      sampleQuat_light_x, light_angle] at h0
    norm_num at h0
    rw [sampleQuat_light_x, sampleQuat_light_x] at h0
    norm_num at h0

/-- C19: for a tracker with `num_points ≤ 16` and any batch, `remove_touch_points` (a total
function: both loops are bounded by the count on entry and the batch length) leaves
`num_points' ≤ num_points`, lowers the count by exactly one for each store (so the count never
goes below zero), and every read and store of `game->points` is at a slot below the count on
entry, hence inside `points[16]`.  The logged run returns the same game as
`remove_touch_points`. -/
theorem C19_remove_keeps_count_in_range (g : Game F Q) (batch : List (TouchPoint F))
    (hcap : g.num_points ≤ 16) :
    (remove_touch_points_log g batch).1 = remove_touch_points g batch ∧
    (remove_touch_points g batch).num_points ≤ g.num_points ∧
    (remove_touch_points g batch).num_points +
      (remove_touch_points_log g batch).2.countP Access.isWrite = g.num_points ∧
    (∀ a ∈ (remove_touch_points_log g batch).2, a.slot < g.num_points ∧ a.slot < 16) := by
  obtain ⟨h1, h2, _, h4, h5⟩ := remove_loop_log_spec batch g g.num_points (Nat.le_refl _)
  obtain ⟨r1, r2⟩ := reseed_reads_spec
    ((List.range g.num_points).foldl (remove_step_log batch) (g, [])).1
  have e : (remove_touch_points_log g batch).1 = remove_touch_points g batch := by
    simp only [remove_touch_points_log, remove_touch_points, h1]
  refine ⟨e, ?_, ?_, ?_⟩
  · rw [← e]
    simpa [remove_touch_points_log] using h2
  · rw [← e]
    simp only [remove_touch_points_log, reseed_num_points, List.countP_append, r1]
    omega
  · intro a ha
    have hlt : a.slot < g.num_points := by
      simp only [remove_touch_points_log] at ha
      rcases List.mem_append.1 ha with h | h
      · exact h5 a h
      · exact Nat.lt_of_lt_of_le (r2 a h) h2
    exact ⟨hlt, by omega⟩

/-- Witness of C19: live contacts with indices 1, 2, 3 and the batch of indices 1 and 3. -/
theorem C19_remove_keeps_count_in_range_witness :
    (tracker [tp 1 0 0, tp 2 5 5, tp 3 9 9]).num_points ≤ 16 ∧
    (remove_touch_points (tracker [tp 1 0 0, tp 2 5 5, tp 3 9 9])
      [tp 1 0 0, tp 3 9 9]).num_points ≤ (tracker [tp 1 0 0, tp 2 5 5, tp 3 9 9]).num_points :=
  ⟨by decide,
   (C19_remove_keeps_count_in_range (tracker [tp 1 0 0, tp 2 5 5, tp 3 9 9])
      [tp 1 0 0, tp 3 9 9] (by decide)).2.1⟩

end OrchestratorClaims

end Game3D

